import Mathlib

/-!
PolarGridTracking: binary occupancy map and measurement model.

A shallow embedding of `src/src/polargridtracking.cpp`.

Conventions of the embedding

* A finite `double` is the rational it holds. The arithmetic of lines 90-100
  is binary64 arithmetic: every operation is rounded to the nearest binary64
  value, ties to even, with gradual underflow (`roundDouble`). A value that is
  not finite (an overflow, a division by zero, and every operation on such a
  value) is `none`. The one operation of IEEE arithmetic that leads from an
  infinity back to a finite value is a division by it, which gives 0; in
  lines 94-100 such a quotient is a factor, its product is 0 or NaN, and the
  index converted from it is 0, as it is for `none`.
* The quotient of line 65 is kept as the exact rational `occupiedProbOf`; the
  source stores its rounding to binary64.
* `uint32_t` values are natural numbers below `2 ^ 32`, `int` values are
  integers in `[-2 ^ 31, 2 ^ 31)`; every conversion between them, and the
  conversion `double -> uint32_t` of a finite value, wraps modulo `2 ^ 32` and
  is written out (`toUInt32`, `toInt32`, `doubleToUInt32`). The conversion of
  a value that is not finite, which C++ leaves undefined, yields 0 (the low 32
  bits of the result of the x86-64 conversion instruction); the test of lines
  102-103 then drops the point.
* `BinaryMap` and `CellGrid` are dense matrices; they are represented by
  their shape and an entry function. A read through `BinaryMap.read` is
  checked: outside the shape it yields `none`.
* A run that reads outside the map, or whose loop never terminates, yields
  `none`.
-/

namespace polar_grid_tracking

/-! ## Machine numbers -/

/-- Conversion of an integer value to `uint32_t`: reduction modulo `2 ^ 32`. -/
def toUInt32 (i : Int) : Nat := (i % 4294967296).toNat

/-- Conversion of an integer value to `int`: the representative of its class
modulo `2 ^ 32` in `[-2 ^ 31, 2 ^ 31)`. -/
def toInt32 (i : Int) : Int :=
  if i % 4294967296 < 2147483648 then i % 4294967296 else i % 4294967296 - 4294967296

/-- Truncation of a `double` toward zero, the integer part that a conversion
to an integer type keeps. -/
def truncToInt (q : ℚ) : Int := if 0 ≤ q then ⌊q⌋ else ⌈q⌉

/-- Rounding of a rational to the nearest integer, ties to the even one. -/
def roundHalfEven (q : ℚ) : Int :=
  if q - ⌊q⌋ < 1 / 2 then ⌊q⌋
  else if 1 / 2 < q - ⌊q⌋ then ⌊q⌋ + 1
  else if ⌊q⌋ % 2 = 0 then ⌊q⌋ else ⌊q⌋ + 1

/-- The spacing of the binary64 values at `q`: `2 ^ (e - 52)` for
`2 ^ e <= |q| < 2 ^ (e + 1)`, and `2 ^ (-1074)`, the spacing of the subnormal
values, for `|q| < 2 ^ (-1022)`. -/
def ulp (q : ℚ) : ℚ := 2 ^ (max (Int.log 2 |q|) (-1022) - 52)

/-- The `double` that an operation with the exact result `q` returns: `q`
rounded to the nearest multiple of the spacing at `q`, ties to the even
multiple; `none` (an infinity) when that is `2 ^ 1024` or more in magnitude. -/
def roundDouble (q : ℚ) : Option ℚ :=
  if |(roundHalfEven (q / ulp q) : ℚ) * ulp q| < 2 ^ 1024 then
    some ((roundHalfEven (q / ulp q) : ℚ) * ulp q)
  else none

/-- The conversion of an unsigned integer to `double`. -/
def natToDouble (n : Nat) : Option ℚ := roundDouble (n : ℚ)

/-- The `double` negation `-a`, which is exact. -/
def negDouble (a : Option ℚ) : Option ℚ := a.map (fun x => -x)

/-- The `double` difference `a - b`. -/
def subDouble (a b : Option ℚ) : Option ℚ :=
  a.bind (fun x => b.bind (fun y => roundDouble (x - y)))

/-- The `double` product `a * b`. -/
def mulDouble (a b : Option ℚ) : Option ℚ :=
  a.bind (fun x => b.bind (fun y => roundDouble (x * y)))

/-- The `double` quotient `a / b`; a division by zero gives an infinity or
NaN. -/
def divDouble (a b : Option ℚ) : Option ℚ :=
  a.bind (fun x => b.bind (fun y => if y = 0 then none else roundDouble (x / y)))

/-- Conversion `double -> uint32_t` as in `const uint32_t xPos = <double>`:
truncation toward zero, overflow taken modulo `2 ^ 32`; 0 for a value that is
not finite. -/
def doubleToUInt32 (d : Option ℚ) : Nat :=
  (d.map (fun q => toUInt32 (truncToInt q))).getD 0

/-! ## Data model -/

/-- A point of the cloud (`pcl::PointXYZRGB`); only `x` and `z` are read.
Both are `float` members, converted to `double` without rounding. -/
structure Point where
  x : ℚ
  z : ℚ

/-- The boolean matrix `BinaryMap` (its typedef is in polargridtracking.h,
not under src/; the source uses it through `Zero(rows, cols)` and
`map(r, c)`): shape and entries. -/
structure BinaryMap where
  rows : Nat
  cols : Nat
  get : Nat → Nat → Bool

/-- The matrix `BinaryMap::Zero(rows, cols)`. -/
def BinaryMap.Zero (rows cols : Nat) : BinaryMap :=
  { rows := rows, cols := cols, get := fun _ _ => false }

/-- The assignment `map(r, c) = b`. -/
def BinaryMap.set (m : BinaryMap) (r c : Nat) (b : Bool) : BinaryMap :=
  { m with get := fun r1 c1 => if r1 = r ∧ c1 = c then b else m.get r1 c1 }

/-- The checked read `map(r, c)`: `none` outside the shape of the map. -/
def BinaryMap.read (m : BinaryMap) (r c : Nat) : Option Bool :=
  if r < m.rows ∧ c < m.cols then some (m.get r c) else none

/-- Modelled from the spec: class `Cell` (cell.h) is not under src/. A cell
owns its smoothing radii, its occupancy probability and its particles; the
particle type `P` is left open. The radii are read into `const int`. -/
structure Cell (P : Type) where
  sigmaX : Int
  sigmaZ : Int
  occupiedProb : ℚ
  particles : List P

/-- Modelled from the spec: `Cell::empty`, the cell currently holds no
particles. -/
def Cell.empty {P : Type} (c : Cell P) : Bool := c.particles.isEmpty

/-- Modelled from the spec: `Cell::setOccupiedProb` stores the probability on
the cell. -/
def Cell.setOccupiedProb {P : Type} (c : Cell P) (p : ℚ) : Cell P :=
  { c with occupiedProb := p }

/-- Modelled from the spec: `Cell::createParticles(n)` spawns `n` new particles
in the cell; `fresh k` is the `k`-th particle of the batch. -/
def Cell.createParticles {P : Type} (c : Cell P) (fresh : Nat → P) (n : Nat) : Cell P :=
  { c with particles := c.particles ++ (List.range n).map fresh }

/-- The matrix `CellGrid` of cells (its typedef is in polargridtracking.h, not
under src/; the source uses it through `CellGrid(rows, cols)`, `rows()`,
`cols()` and `m_grid(z, x)`): shape and entries. -/
structure CellGrid (P : Type) where
  rows : Nat
  cols : Nat
  cell : Nat → Nat → Cell P

/-- The assignment `m_grid(z, x) = c`. -/
def CellGrid.set {P : Type} (g : CellGrid P) (z x : Nat) (c : Cell P) : CellGrid P :=
  { g with cell := fun z1 x1 => if z1 = z ∧ x1 = x then c else g.cell z1 x1 }

/-- The members of `PolarGridTracking` that the two methods read, as the
constructor initialises them. `m_particlesPerCell` (a `double` in the source)
is kept as the number of particles that `createParticles` receives;
`m_cameraParams` is only handed to the cell constructor. -/
structure PolarGridTracking (P : Type) where
  m_grid : CellGrid P
  m_cellSizeX : ℚ
  m_cellSizeZ : ℚ
  m_particlesPerCell : Nat
  m_threshProbForCreation : ℚ

/-! ## getBinaryMapFromPointCloud -/

section BinaryMapBuilder

variable {P : Type}

/-- Line 90: `maxZ = m_grid.rows() * m_cellSizeZ`. -/
def maxZ (t : PolarGridTracking P) : Option ℚ :=
  mulDouble (natToDouble t.m_grid.rows) (some t.m_cellSizeZ)

/-- Line 91: `maxX = m_grid.cols() / 2.0 * m_cellSizeX`. -/
def maxX (t : PolarGridTracking P) : Option ℚ :=
  mulDouble (divDouble (natToDouble t.m_grid.cols) (some 2)) (some t.m_cellSizeX)

/-- Line 92: `minX = -maxX`. -/
def minX (t : PolarGridTracking P) : Option ℚ := negDouble (maxX t)

/-- Line 94: `factorX = m_grid.cols() / (maxX - minX)`. -/
def factorX (t : PolarGridTracking P) : Option ℚ :=
  divDouble (natToDouble t.m_grid.cols) (subDouble (maxX t) (minX t))

/-- Line 95: `factorZ = m_grid.rows() / maxZ`. -/
def factorZ (t : PolarGridTracking P) : Option ℚ :=
  divDouble (natToDouble t.m_grid.rows) (maxZ t)

/-- Line 99, the right-hand side `(point.x - minX) * factorX` before its
conversion to `uint32_t`. -/
def scaledX (t : PolarGridTracking P) (p : Point) : Option ℚ :=
  mulDouble (subDouble (some p.x) (minX t)) (factorX t)

/-- Line 100, the right-hand side `point.z * factorZ` before its conversion
to `uint32_t`. -/
def scaledZ (t : PolarGridTracking P) (p : Point) : Option ℚ :=
  mulDouble (some p.z) (factorZ t)

/-- Line 99: `const uint32_t xPos = (point.x - minX) * factorX`. -/
def xPos (t : PolarGridTracking P) (p : Point) : Nat := doubleToUInt32 (scaledX t p)

/-- Line 100: `const uint32_t zPos = point.z * factorZ`. -/
def zPos (t : PolarGridTracking P) (p : Point) : Nat := doubleToUInt32 (scaledZ t p)

/-- Lines 99-106, the body of the loop over the cloud for one point. -/
def markPoint (t : PolarGridTracking P) (map : BinaryMap) (p : Point) : BinaryMap :=
  if 0 < xPos t p ∧ xPos t p < t.m_grid.cols ∧ 0 < zPos t p ∧ zPos t p < t.m_grid.rows then
    map.set (zPos t p) (xPos t p) true
  else
    map

/-- Lines 85-108: the map starts as `Zero(rows, cols)` and every point of the
cloud is marked in turn. -/
def getBinaryMapFromPointCloud (t : PolarGridTracking P) (cloud : List Point) : BinaryMap :=
  cloud.foldl (markPoint t) (BinaryMap.Zero t.m_grid.rows t.m_grid.cols)

end BinaryMapBuilder

/-! ## getMeasurementModelFromPointCloud -/

section MeasurementModel

variable {P : Type}

/-- The values the counter takes in
`for (uint32_t i = lo; i <= hi; i++)`, where `lo` and `hi` are `int`
expressions: `lo` is converted by the initialisation and `hi` by the
comparison. When `hi` converts to `2 ^ 32 - 1` the condition always holds and
the loop has no last iteration. -/
def loopRange (lo hi : Int) : Option (List Nat) :=
  if toUInt32 hi = 4294967295 then none
  else some (List.range' (toUInt32 lo) (toUInt32 hi + 1 - toUInt32 lo))

/-- Lines 58 and 59, lower bound: `max(0, (int)(i - sigma))` with `i` a
`uint32_t` and `sigma` an `int`; the difference is taken in `uint32_t`. -/
def windowLo (i : Nat) (sigma : Int) : Int :=
  max 0 (toInt32 (toUInt32 ((i : Int) - sigma)))

/-- Lines 58 and 59, upper bound: `min((int)(dim - 1), (int)(i + sigma))`
with `dim` the number of rows or columns; the sum is taken in `uint32_t`. -/
def windowHi (dim i : Nat) (sigma : Int) : Int :=
  min (toInt32 ((dim : Int) - 1)) (toInt32 (toUInt32 ((i : Int) + sigma)))

/-- Lines 59-61: the inner loop over `col` for one `row`, adding to the
`uint32_t` counter `totalOccupied`. -/
def colLoop (map : BinaryMap) (row : Nat) : List Nat → Nat → Option Nat
  | [], acc => some acc
  | col :: rest, acc =>
    match map.read row col with
    | none => none
    | some b => colLoop map row rest ((acc + (if b then 1 else 0)) % 4294967296)

/-- Lines 58-62: the outer loop over `row`; `colRange` is the range of the
inner loop, the same for every row. -/
def rowLoop (map : BinaryMap) (colRange : Option (List Nat)) : List Nat → Nat → Option Nat
  | [], acc => some acc
  | row :: rest, acc =>
    match colRange with
    | none => none
    | some cs =>
      match colLoop map row cs acc with
      | none => none
      | some acc1 => rowLoop map colRange rest acc1

/-- Lines 57-62: `totalOccupied` for the cell `(z, x)` of a `rows x cols`
grid with radii `sigmaX`, `sigmaZ`. -/
def totalOccupied (map : BinaryMap) (rows cols z x : Nat) (sigmaX sigmaZ : Int) : Option Nat :=
  (loopRange (windowLo z sigmaZ) (windowHi rows z sigmaZ)).bind (fun rs =>
    rowLoop map (loopRange (windowLo x sigmaX) (windowHi cols x sigmaX)) rs 0)

/-- The index pairs `(row, col)` at which lines 58-60 read the map for the
cell `(z, x)`, in the order of the reads, as long as no read fails; `none`
when a loop that is entered has no last iteration. -/
def windowReads (rows cols z x : Nat) (sigmaX sigmaZ : Int) : Option (List (Nat × Nat)) :=
  (loopRange (windowLo z sigmaZ) (windowHi rows z sigmaZ)).bind (fun rs =>
    if rs.isEmpty then some []
    else (loopRange (windowLo x sigmaX) (windowHi cols x sigmaX)).map (fun cs =>
      rs.flatMap (fun r => cs.map (fun c => (r, c)))))

/-- Line 65: `(double)totalOccupied / ((2.0 * sigmaZ + 1.0) * (2.0 * sigmaX + 1.0))`. -/
def occupiedProbOf (total : Nat) (sigmaX sigmaZ : Int) : ℚ :=
  (total : ℚ) / ((2 * (sigmaZ : ℚ) + 1) * (2 * (sigmaX : ℚ) + 1))

/-- Lines 53-70: the body of the loops over the cells, for the cell `(z, x)`.
`fresh z x k` is the `k`-th particle that `createParticles` makes there. -/
def measureCell (t : PolarGridTracking P) (fresh : Nat → Nat → Nat → P) (map : BinaryMap)
    (z x : Nat) (cell : Cell P) : Option (Cell P) :=
  (totalOccupied map t.m_grid.rows t.m_grid.cols z x cell.sigmaX cell.sigmaZ).bind (fun total =>
    let occupiedProb := occupiedProbOf total cell.sigmaX cell.sigmaZ
    let cell1 := cell.setOccupiedProb occupiedProb
    (map.read z x).bind (fun here =>
      if here && cell1.empty && decide (occupiedProb > t.m_threshProbForCreation) then
        some (cell1.createParticles (fresh z x) t.m_particlesPerCell)
      else
        some cell1))

/-- One iteration of the loops of lines 51-52: the cell `(z, x)` of the grid
is updated in place. -/
def measureStep (t : PolarGridTracking P) (fresh : Nat → Nat → Nat → P) (map : BinaryMap)
    (g : CellGrid P) (zx : Nat × Nat) : Option (CellGrid P) :=
  (measureCell t fresh map zx.1 zx.2 (g.cell zx.1 zx.2)).map (fun c => g.set zx.1 zx.2 c)

/-- The cells in the order of lines 51-52: row by row, each row by columns. -/
def cellOrder (rows cols : Nat) : List (Nat × Nat) :=
  (List.range rows).flatMap (fun z => (List.range cols).map (fun x => (z, x)))

/-- The loops of lines 51-77 over a given visiting order. -/
def measurementLoop (t : PolarGridTracking P) (fresh : Nat → Nat → Nat → P) (map : BinaryMap) :
    List (Nat × Nat) → CellGrid P → Option (CellGrid P)
  | [], g => some g
  | zx :: rest, g => (measureStep t fresh map g zx).bind (measurementLoop t fresh map rest)

/-- Lines 50-77: the estimator for a given binary map. -/
def estimate (t : PolarGridTracking P) (fresh : Nat → Nat → Nat → P) (map : BinaryMap) :
    Option (PolarGridTracking P) :=
  (measurementLoop t fresh map (cellOrder t.m_grid.rows t.m_grid.cols) t.m_grid).map
    (fun g => { t with m_grid := g })

/-- Lines 44-77: the binary map is built from the cloud, then the estimator
runs on it. -/
def getMeasurementModelFromPointCloud (t : PolarGridTracking P) (fresh : Nat → Nat → Nat → P)
    (cloud : List Point) : Option (PolarGridTracking P) :=
  estimate t fresh (getBinaryMapFromPointCloud t cloud)

/-- Lines 35-39, the loops of the constructor over a list of cells.
`mkCell x z cellSizeX cellSizeZ` is the outcome of the call
`Cell(x, z, m_cellSizeX, m_cellSizeZ, m_cameraParams)`: class `Cell` (cell.h)
is not under src/, and whether its constructor returns a cell or reports an
error is left open. An error ends the loops. -/
def constructCells (mkCell : Nat → Nat → ℚ → ℚ → Except String (Cell P))
    (cellSizeX cellSizeZ : ℚ) : List (Nat × Nat) → CellGrid P → Except String (CellGrid P)
  | [], g => Except.ok g
  | zx :: rest, g =>
    match mkCell zx.2 zx.1 cellSizeX cellSizeZ with
    | Except.error e => Except.error e
    | Except.ok c => constructCells mkCell cellSizeX cellSizeZ rest (g.set zx.1 zx.2 c)

/-- Lines 28-41, the constructor. `defaultCell` is the cell of a fresh
`CellGrid(rows, cols)`. The members are initialised from the arguments and
the loops construct the cells; the body holds no other statement. -/
def PolarGridTracking.PolarGridTracking (defaultCell : Cell P)
    (mkCell : Nat → Nat → ℚ → ℚ → Except String (Cell P)) (rows cols : Nat)
    (cellSizeX cellSizeZ : ℚ) (particlesPerCell : Nat) (threshProbForCreation : ℚ) :
    Except String (PolarGridTracking P) :=
  match constructCells mkCell cellSizeX cellSizeZ (cellOrder rows cols)
      { rows := rows, cols := cols, cell := fun _ _ => defaultCell } with
  | Except.error e => Except.error e
  | Except.ok g =>
    Except.ok
      { m_grid := g
        m_cellSizeX := cellSizeX
        m_cellSizeZ := cellSizeZ
        m_particlesPerCell := particlesPerCell
        m_threshProbForCreation := threshProbForCreation }

end MeasurementModel

/-! ## Specification-side definitions -/

/-- Modelled from the spec: the lateral index
`trunc((x - minX) * cols / (maxX - minX))` with `maxX = cols / 2 * cellSizeX`
and `minX = -maxX`, in exact arithmetic. -/
def lateralIndex {P : Type} (t : PolarGridTracking P) (p : Point) : Int :=
  truncToInt ((p.x - -((t.m_grid.cols : ℚ) / 2 * t.m_cellSizeX)) * (t.m_grid.cols : ℚ) /
    ((t.m_grid.cols : ℚ) / 2 * t.m_cellSizeX - -((t.m_grid.cols : ℚ) / 2 * t.m_cellSizeX)))

/-- Modelled from the spec: the depth index
`trunc(z * rows / (rows * cellSizeZ))`, in exact arithmetic. -/
def depthIndex {P : Type} (t : PolarGridTracking P) (p : Point) : Int :=
  truncToInt (p.z * (t.m_grid.rows : ℚ) / ((t.m_grid.rows : ℚ) * t.m_cellSizeZ))

/-- The number `N` of the specification: the true map entries `(row, col)`
with `max(0, r - sigmaZ) <= row <= min(rows - 1, r + sigmaZ)` and
`max(0, c - sigmaX) <= col <= min(cols - 1, c + sigmaX)`. -/
def clampedWindowCount (map : BinaryMap) (rows cols r c : Nat) (sigmaX sigmaZ : Int) : Nat :=
  ((Finset.range rows ×ˢ Finset.range cols).filter (fun p =>
    max 0 ((r : Int) - sigmaZ) ≤ (p.1 : Int) ∧ (p.1 : Int) ≤ min ((rows : Int) - 1) ((r : Int) + sigmaZ) ∧
    max 0 ((c : Int) - sigmaX) ≤ (p.2 : Int) ∧ (p.2 : Int) ≤ min ((cols : Int) - 1) ((c : Int) + sigmaX) ∧
    map.get p.1 p.2 = true)).card

/-- The condition of line 68 for a cell: `here` is the map entry of the cell
itself, `cell` the cell before the run, `prob` the probability of this run. -/
def spawnGate {P : Type} (here : Bool) (cell : Cell P) (prob thresh : ℚ) : Prop :=
  here = true ∧ cell.particles = [] ∧ prob > thresh

/-- The sum of the entries `map(r, c)`, counted as 0 or 1, over the rows `rs`
and the columns `cs`. -/
def countEntries (map : BinaryMap) (rs cs : List Nat) : Nat :=
  (rs.map (fun r => (cs.map (fun c => if map.get r c then 1 else 0)).sum)).sum

/-- The index arithmetic of the window loops stays inside `int`: both
dimensions are at most `2 ^ 31`, and every cell of the grid has non-negative
radii with `z + sigmaZ` and `x + sigmaX` below `2 ^ 31`. -/
def CellGrid.fitsInt {P : Type} (g : CellGrid P) : Prop :=
  g.rows ≤ 2147483648 ∧ g.cols ≤ 2147483648 ∧
  ∀ z x, z < g.rows → x < g.cols →
    0 ≤ (g.cell z x).sigmaX ∧ 0 ≤ (g.cell z x).sigmaZ ∧
    (z : Int) + (g.cell z x).sigmaZ < 2147483648 ∧ (x : Int) + (g.cell z x).sigmaX < 2147483648

/-- The number of cells of the nominal window
`[r - sigmaZ, r + sigmaZ] x [c - sigmaX, c + sigmaX]` that lie in the grid. -/
def inGridWindowCells (rows cols r c : Nat) (sigmaX sigmaZ : Int) : Nat :=
  ((Finset.range rows ×ˢ Finset.range cols).filter (fun p =>
    (r : Int) - sigmaZ ≤ (p.1 : Int) ∧ (p.1 : Int) ≤ (r : Int) + sigmaZ ∧
    (c : Int) - sigmaX ≤ (p.2 : Int) ∧ (p.2 : Int) ≤ (c : Int) + sigmaX)).card

/-- The nominal window `[r - sigmaZ, r + sigmaZ] x [c - sigmaX, c + sigmaX]`
is contained in the grid (for non-negative radii). -/
def nominalWindowInGrid (rows cols r c : Nat) (sigmaX sigmaZ : Int) : Prop :=
  0 ≤ (r : Int) - sigmaZ ∧ (r : Int) + sigmaZ ≤ (rows : Int) - 1 ∧
  0 ≤ (c : Int) - sigmaX ∧ (c : Int) + sigmaX ≤ (cols : Int) - 1

/-! ## Example inputs -/

/-- A cell with the given radii, probability zero and no particle. -/
def emptyCell (sigmaX sigmaZ : Int) : Cell Nat :=
  { sigmaX := sigmaX, sigmaZ := sigmaZ, occupiedProb := 0, particles := [] }

/-- A tracker over a `rows x cols` grid of empty cells with radius one and
cell size one by one. -/
def unitTracker (rows cols particlesPerCell : Nat) (thresh : ℚ) : PolarGridTracking Nat :=
  { m_grid := { rows := rows, cols := cols, cell := fun _ _ => emptyCell 1 1 }
    m_cellSizeX := 1
    m_cellSizeZ := 1
    m_particlesPerCell := particlesPerCell
    m_threshProbForCreation := thresh }

/-- The scenario of the specification: 10 x 10 cells, threshold 0.05, four
particles per cell. -/
def scenarioTracker : PolarGridTracking Nat := unitTracker 10 10 4 (1 / 20)

/-- The 10 x 10 map whose only occupied entry is `(5, 5)`. -/
def scenarioMap : BinaryMap := (BinaryMap.Zero 10 10).set 5 5 true

/-- The map of the given shape whose entries are all occupied. -/
def fullMap (rows cols : Nat) : BinaryMap :=
  { rows := rows, cols := cols, get := fun _ _ => true }

/-- A tracker over a single column of `2 ^ 31 + 1` cells with radius zero. -/
def tallTracker : PolarGridTracking Nat :=
  { m_grid := { rows := 2147483649, cols := 1, cell := fun _ _ => emptyCell 0 0 }
    m_cellSizeX := 1
    m_cellSizeZ := 1
    m_particlesPerCell := 4
    m_threshProbForCreation := 1 / 20 }

/-- A tracker over two rows and one column whose cells have `sigmaX = 0` and
`sigmaZ = 2 ^ 31 - 1`, the largest `int`. -/
def wideRadiusTracker : PolarGridTracking Nat :=
  { m_grid := { rows := 2, cols := 1, cell := fun _ _ => emptyCell 0 2147483647 }
    m_cellSizeX := 1
    m_cellSizeZ := 1
    m_particlesPerCell := 4
    m_threshProbForCreation := 1 / 20 }

/-- A tracker over 3 rows and 2 columns with `cellSizeX = 24.5` and
`cellSizeZ = 1`: `maxX = 24.5`, `minX = -24.5`, and the quotient `2 / 49` of
`factorX` is not a binary64 value. -/
def boundaryTracker : PolarGridTracking Nat :=
  { m_grid := { rows := 3, cols := 2, cell := fun _ _ => emptyCell 1 1 }
    m_cellSizeX := 49 / 2
    m_cellSizeZ := 1
    m_particlesPerCell := 4
    m_threshProbForCreation := 1 / 20 }

/-- A constructor of `Cell` that rejects every cell. -/
def rejectingCell : Nat → Nat → ℚ → ℚ → Except String (Cell Nat) :=
  fun _ _ _ _ => Except.error "rejected"

/-- A tracker over a single cell whose `cellSizeX` is `2 ^ (-1074)`, the
smallest positive `double`. -/
def tinyCellTracker : PolarGridTracking Nat :=
  { m_grid := { rows := 1, cols := 1, cell := fun _ _ => emptyCell 1 1 }
    m_cellSizeX := 1 / 2 ^ 1074
    m_cellSizeZ := 1
    m_particlesPerCell := 4
    m_threshProbForCreation := 1 / 20 }

/-- Particles are numbered by cell and position in the batch. -/
def numberedParticle (z x k : Nat) : Nat := (z * 10 + x) * 10 + k

/-- A tracker over a single column of `2 ^ 31 + 1` cells with `sigmaX = 0` and
`sigmaZ = 1`. -/
def tallEdgeTracker : PolarGridTracking Nat :=
  { m_grid := { rows := 2147483649, cols := 1, cell := fun _ _ => emptyCell 0 1 }
    m_cellSizeX := 1
    m_cellSizeZ := 1
    m_particlesPerCell := 4
    m_threshProbForCreation := 1 / 20 }

/-- A tracker over `2 ^ 16` rows and `2 ^ 16` columns whose cells have both
radii `2 ^ 16`, so that every window covers the whole grid. -/
def squareTracker : PolarGridTracking Nat :=
  { m_grid := { rows := 65536, cols := 65536, cell := fun _ _ => emptyCell 65536 65536 }
    m_cellSizeX := 1
    m_cellSizeZ := 1
    m_particlesPerCell := 4
    m_threshProbForCreation := 1 / 20 }

/-! ## Lemmas and theorems -/

section Theorems

variable {P : Type}

/-! ### Conversions -/

theorem toUInt32_of_range (i : Int) (h0 : 0 ≤ i) (h1 : i < 4294967296) :
    toUInt32 i = i.toNat := by
  unfold toUInt32; omega

theorem toInt32_toUInt32 (i : Int) (h0 : -2147483648 ≤ i) (h1 : i < 2147483648) :
    toInt32 (toUInt32 i) = i := by
  unfold toInt32 toUInt32; omega

theorem toInt32_of_range (i : Int) (h0 : -2147483648 ≤ i) (h1 : i < 2147483648) :
    toInt32 i = i := by
  unfold toInt32; omega

/-! ### Rounding to binary64 -/

theorem roundHalfEven_intCast (k : Int) : roundHalfEven (k : ℚ) = k := by
  unfold roundHalfEven
  rw [Int.floor_intCast, sub_self, if_pos (by norm_num)]

theorem roundHalfEven_of_near (q : ℚ) (m : Int) (h1 : (m : ℚ) - 1 / 2 < q)
    (h2 : q < (m : ℚ) + 1 / 2) : roundHalfEven q = m := by
  unfold roundHalfEven
  by_cases hq : (m : ℚ) ≤ q
  · have hf : ⌊q⌋ = m := by
      rw [Int.floor_eq_iff]
      constructor
      · exact hq
      · linarith
    rw [hf, if_pos (by linarith)]
  · have hf : ⌊q⌋ = m - 1 := by
      rw [Int.floor_eq_iff]
      push_cast
      constructor
      · linarith
      · linarith
    rw [hf]
    push_cast
    rw [if_neg (by linarith), if_pos (by linarith)]
    ring

theorem ulp_eq (q : ℚ) (e : Int) (h1 : (2 : ℚ) ^ e ≤ |q|) (h2 : |q| < (2 : ℚ) ^ (e + 1)) :
    ulp q = 2 ^ (max e (-1022) - 52) := by
  have hpos : (0 : ℚ) < |q| := lt_of_lt_of_le (by positivity) h1
  have hlog : Int.log 2 |q| = e := by
    apply le_antisymm
    · have := (Int.lt_zpow_iff_log_lt (R := ℚ) (b := 2) (by norm_num) hpos (x := e + 1)).mp
        (by exact_mod_cast h2)
      omega
    · exact (Int.zpow_le_iff_le_log (R := ℚ) (b := 2) (by norm_num) hpos (x := e)).mp
        (by exact_mod_cast h1)
  unfold ulp
  rw [hlog]


theorem roundDouble_of_near (q : ℚ) (e m : Int) (h1 : (2 : ℚ) ^ e ≤ |q|)
    (h2 : |q| < (2 : ℚ) ^ (e + 1)) (he : -1022 ≤ e)
    (hm1 : (m : ℚ) - 1 / 2 < q / 2 ^ (e - 52)) (hm2 : q / 2 ^ (e - 52) < (m : ℚ) + 1 / 2)
    (hfin : |(m : ℚ) * 2 ^ (e - 52)| < 2 ^ 1024) :
    roundDouble q = some ((m : ℚ) * 2 ^ (e - 52)) := by
  have hu : ulp q = 2 ^ (e - 52) := by
    rw [ulp_eq q e h1 h2, max_eq_left he]
  unfold roundDouble
  rw [hu, roundHalfEven_of_near _ m hm1 hm2, if_pos hfin]

theorem roundDouble_zero : roundDouble 0 = some 0 := by
  unfold roundDouble
  rw [zero_div, show ((0 : ℚ)) = ((0 : Int) : ℚ) by norm_num, roundHalfEven_intCast]
  norm_num

theorem scaled_mantissa (m u v : Int) (k : Nat) (hk : u = v + k) :
    (m : ℚ) * 2 ^ u / 2 ^ v = ((m * 2 ^ k : Int) : ℚ) := by
  subst hk
  rw [eq_comm, eq_div_iff (by positivity), zpow_add₀ (by norm_num : (2 : ℚ) ≠ 0)]
  push_cast
  rw [zpow_natCast]
  ring

theorem roundDouble_of_exact (m u : Int) (hm : |m| < 9007199254740992) (hu : -1074 ≤ u)
    (hfin : |(m : ℚ) * 2 ^ u| < 2 ^ 1024) :
    roundDouble ((m : ℚ) * 2 ^ u) = some ((m : ℚ) * 2 ^ u) := by
  by_cases h0 : m = 0
  · subst h0
    simp only [Int.cast_zero, zero_mul]
    exact roundDouble_zero
  have hmq : (0 : ℚ) < |(m : ℚ)| := abs_pos.mpr (by exact_mod_cast h0)
  have h2u : (0 : ℚ) < 2 ^ u := zpow_pos (by norm_num) u
  have hq : |(m : ℚ) * 2 ^ u| = |(m : ℚ)| * 2 ^ u := by
    rw [abs_mul, abs_of_pos h2u]
  have hpos : (0 : ℚ) < |(m : ℚ) * 2 ^ u| := by
    rw [hq]; exact mul_pos hmq h2u
  have hlo := Int.zpow_log_le_self (R := ℚ) (b := 2) (by norm_num) hpos
  have hlog : Int.log 2 |(m : ℚ) * 2 ^ u| - 52 ≤ u := by
    have hlt : ((2 : Nat) : ℚ) ^ Int.log 2 |(m : ℚ) * 2 ^ u| < (2 : ℚ) ^ (u + 53) := by
      refine lt_of_le_of_lt hlo ?_
      rw [hq, zpow_add₀ (by norm_num : (2 : ℚ) ≠ 0), mul_comm]
      refine mul_lt_mul_of_pos_left ?_ h2u
      have h53 : ((9007199254740992 : Int) : ℚ) = (2 : ℚ) ^ (53 : Int) := by norm_num
      rw [← h53, ← Int.cast_abs]
      exact Int.cast_lt.mpr hm
    have := (zpow_lt_zpow_iff_right₀ (by norm_num : (1 : ℚ) < 2)).mp
      (by exact_mod_cast hlt : (2 : ℚ) ^ Int.log 2 |(m : ℚ) * 2 ^ u| < (2 : ℚ) ^ (u + 53))
    omega
  obtain ⟨k, hk⟩ : ∃ k : Nat, u = max (Int.log 2 |(m : ℚ) * 2 ^ u|) (-1022) - 52 + k := by
    refine ⟨(u - (max (Int.log 2 |(m : ℚ) * 2 ^ u|) (-1022) - 52)).toNat, ?_⟩
    omega
  have hdiv : (m : ℚ) * 2 ^ u / ulp ((m : ℚ) * 2 ^ u) = ((m * 2 ^ k : Int) : ℚ) := by
    unfold ulp
    exact scaled_mantissa m u _ k hk
  have hval : ((m * 2 ^ k : Int) : ℚ) * ulp ((m : ℚ) * 2 ^ u) = (m : ℚ) * 2 ^ u := by
    rw [← hdiv, div_mul_cancel₀]
    unfold ulp
    positivity
  unfold roundDouble
  rw [hdiv, roundHalfEven_intCast, hval, if_pos hfin]

theorem roundDouble_intCast (k : Int) (hk : |k| < 9007199254740992) :
    roundDouble (k : ℚ) = some (k : ℚ) := by
  have h := roundDouble_of_exact k 0 hk (by norm_num) (by
    rw [zpow_zero, mul_one]
    have : |(k : ℚ)| < 9007199254740992 := by exact_mod_cast hk
    refine lt_trans this ?_
    norm_num)
  rw [zpow_zero, mul_one] at h
  exact h

theorem roundDouble_of_int (q : ℚ) (k : Int) (hq : q = (k : ℚ)) (hk : |k| < 9007199254740992) :
    roundDouble q = some q := by
  rw [hq]
  exact roundDouble_intCast k hk

theorem roundDouble_of_dyadic (q : ℚ) (m u : Int) (hq : q = (m : ℚ) * 2 ^ u)
    (hm : |m| < 9007199254740992) (hu : -1074 ≤ u) (hfin : |q| < 2 ^ 1024) :
    roundDouble q = some q := by
  subst hq
  exact roundDouble_of_exact m u hm hu hfin

/-! ### The binary map -/

theorem markPoint_rows (t : PolarGridTracking P) (m : BinaryMap) (p : Point) :
    (markPoint t m p).rows = m.rows ∧ (markPoint t m p).cols = m.cols := by
  unfold markPoint BinaryMap.set
  split <;> simp

theorem markPoint_get (t : PolarGridTracking P) (m : BinaryMap) (p : Point) (r c : Nat) :
    (markPoint t m p).get r c = true ↔
      m.get r c = true ∨
        ((0 < xPos t p ∧ xPos t p < t.m_grid.cols ∧ 0 < zPos t p ∧ zPos t p < t.m_grid.rows) ∧
          zPos t p = r ∧ xPos t p = c) := by
  unfold markPoint BinaryMap.set
  by_cases hv : 0 < xPos t p ∧ xPos t p < t.m_grid.cols ∧ 0 < zPos t p ∧ zPos t p < t.m_grid.rows
  · rw [if_pos hv]
    by_cases hrc : r = zPos t p ∧ c = xPos t p
    · simp [hrc, hv]
    · simp only [hrc, if_false]
      constructor
      · intro h; exact Or.inl h
      · rintro (h | ⟨_, h1, h2⟩)
        · exact h
        · exact absurd ⟨h1.symm, h2.symm⟩ hrc
  · rw [if_neg hv]
    constructor
    · intro h; exact Or.inl h
    · rintro (h | ⟨h, _⟩)
      · exact h
      · exact absurd h hv

theorem foldl_markPoint_get (t : PolarGridTracking P) (cloud : List Point) (m : BinaryMap)
    (r c : Nat) :
    (cloud.foldl (markPoint t) m).get r c = true ↔
      m.get r c = true ∨
        ∃ p ∈ cloud,
          (0 < xPos t p ∧ xPos t p < t.m_grid.cols ∧ 0 < zPos t p ∧ zPos t p < t.m_grid.rows) ∧
            zPos t p = r ∧ xPos t p = c := by
  induction cloud generalizing m with
  | nil => simp
  | cons q qs ih =>
    rw [List.foldl_cons, ih, markPoint_get]
    constructor
    · rintro ((h | h) | ⟨p, hp, h⟩)
      · exact Or.inl h
      · exact Or.inr ⟨q, List.mem_cons_self _ _, h⟩
      · exact Or.inr ⟨p, List.mem_cons_of_mem _ hp, h⟩
    · rintro (h | ⟨p, hp, h⟩)
      · exact Or.inl (Or.inl h)
      · rcases List.mem_cons.mp hp with rfl | hp
        · exact Or.inl (Or.inr h)
        · exact Or.inr ⟨p, hp, h⟩

theorem foldl_markPoint_shape (t : PolarGridTracking P) (cloud : List Point) (m : BinaryMap) :
    (cloud.foldl (markPoint t) m).rows = m.rows ∧ (cloud.foldl (markPoint t) m).cols = m.cols := by
  induction cloud generalizing m with
  | nil => simp
  | cons q qs ih =>
    rw [List.foldl_cons]
    exact ⟨(ih _).1.trans (markPoint_rows t m q).1, (ih _).2.trans (markPoint_rows t m q).2⟩

theorem getBinaryMap_get (t : PolarGridTracking P) (cloud : List Point) (r c : Nat) :
    (getBinaryMapFromPointCloud t cloud).get r c = true ↔
        ∃ p ∈ cloud,
          (0 < xPos t p ∧ xPos t p < t.m_grid.cols ∧ 0 < zPos t p ∧ zPos t p < t.m_grid.rows) ∧
            zPos t p = r ∧ xPos t p = c := by
  unfold getBinaryMapFromPointCloud
  rw [foldl_markPoint_get]
  simp [BinaryMap.Zero]


/-- Every true entry lies strictly inside the grid and is the pair
`(zPos, xPos)` of a point of the cloud; row 0 and column 0 stay false. -/
theorem getBinaryMap_true_entry (t : PolarGridTracking P) (cloud : List Point) (r c : Nat)
    (h : (getBinaryMapFromPointCloud t cloud).get r c = true) :
    1 ≤ r ∧ r < t.m_grid.rows ∧ 1 ≤ c ∧ c < t.m_grid.cols ∧
      ∃ p ∈ cloud, xPos t p = c ∧ zPos t p = r := by
  obtain ⟨p, hp, ⟨h1, h2, h3, h4⟩, hz, hx⟩ := (getBinaryMap_get t cloud r c).mp h
  subst hz hx
  exact ⟨h3, h4, h1, h2, p, hp, rfl, rfl⟩

/-! ### The arithmetic of lines 90-100 at the example grids -/

theorem mulDouble_some (a b : ℚ) : mulDouble (some a) (some b) = roundDouble (a * b) := rfl

theorem subDouble_some (a b : ℚ) : subDouble (some a) (some b) = roundDouble (a - b) := rfl

theorem divDouble_some (a b : ℚ) (hb : b ≠ 0) :
    divDouble (some a) (some b) = roundDouble (a / b) := by
  simp only [divDouble, Option.some_bind, if_neg hb]

theorem doubleToUInt32_some (q : ℚ) : doubleToUInt32 (some q) = toUInt32 (truncToInt q) := rfl

theorem truncToInt_of_floor (q : ℚ) (k : Int) (h0 : (0 : ℚ) ≤ q) (h1 : (k : ℚ) ≤ q)
    (h2 : q < (k : ℚ) + 1) : truncToInt q = k := by
  unfold truncToInt
  rw [if_pos h0, Int.floor_eq_iff]
  exact ⟨h1, h2⟩

theorem unit_maxX : maxX (unitTracker 10 10 4 (1 / 20)) = some 5 := by
  have h1 : natToDouble 10 = some 10 := roundDouble_of_int _ 10 (by norm_num) (by norm_num)
  have h2 : roundDouble ((10 : ℚ) / 2) = some 5 := by
    rw [roundDouble_of_int _ 5 (by norm_num) (by norm_num)]
    norm_num
  have h3 : roundDouble ((5 : ℚ) * 1) = some 5 := by
    rw [roundDouble_of_int _ 5 (by norm_num) (by norm_num)]
    norm_num
  show mulDouble (divDouble (natToDouble 10) (some 2)) (some 1) = some 5
  rw [h1, divDouble_some _ _ (by norm_num), h2, mulDouble_some, h3]

theorem unit_minX : minX (unitTracker 10 10 4 (1 / 20)) = some (-5) := by
  unfold minX
  rw [unit_maxX]
  rfl

theorem unit_factorX : factorX (unitTracker 10 10 4 (1 / 20)) = some 1 := by
  have h1 : natToDouble 10 = some 10 := roundDouble_of_int _ 10 (by norm_num) (by norm_num)
  have h2 : roundDouble ((5 : ℚ) - -5) = some 10 := by
    rw [roundDouble_of_int _ 10 (by norm_num) (by norm_num)]
    norm_num
  have h3 : roundDouble ((10 : ℚ) / 10) = some 1 := by
    rw [roundDouble_of_int _ 1 (by norm_num) (by norm_num)]
    norm_num
  show divDouble (natToDouble 10) (subDouble (maxX (unitTracker 10 10 4 (1 / 20)))
    (minX (unitTracker 10 10 4 (1 / 20)))) = some 1
  rw [unit_maxX, unit_minX, h1, subDouble_some, h2, divDouble_some _ _ (by norm_num), h3]

theorem unit_factorZ : factorZ (unitTracker 10 10 4 (1 / 20)) = some 1 := by
  have h1 : natToDouble 10 = some 10 := roundDouble_of_int _ 10 (by norm_num) (by norm_num)
  have h2 : roundDouble ((10 : ℚ) * 1) = some 10 := by
    rw [roundDouble_of_int _ 10 (by norm_num) (by norm_num)]
    norm_num
  have h3 : roundDouble ((10 : ℚ) / 10) = some 1 := by
    rw [roundDouble_of_int _ 1 (by norm_num) (by norm_num)]
    norm_num
  show divDouble (natToDouble 10) (mulDouble (natToDouble 10) (some 1)) = some 1
  rw [h1, mulDouble_some, h2, divDouble_some _ _ (by norm_num), h3]

theorem scaledX_far_point :
    scaledX (unitTracker 10 10 4 (1 / 20)) { x := 4294967296, z := 5 } = some 4294967301 := by
  have h1 : roundDouble ((4294967296 : ℚ) - -5) = some 4294967301 := by
    rw [roundDouble_of_int _ 4294967301 (by norm_num) (by norm_num)]
    norm_num
  have h2 : roundDouble ((4294967301 : ℚ) * 1) = some 4294967301 := by
    rw [roundDouble_of_int _ 4294967301 (by norm_num) (by norm_num)]
    norm_num
  unfold scaledX
  rw [unit_minX, unit_factorX, subDouble_some, h1, mulDouble_some, h2]

theorem scaledZ_far_point :
    scaledZ (unitTracker 10 10 4 (1 / 20)) { x := 4294967296, z := 5 } = some 5 := by
  have h2 : roundDouble ((5 : ℚ) * 1) = some 5 := by
    rw [roundDouble_of_int _ 5 (by norm_num) (by norm_num)]
    norm_num
  unfold scaledZ
  rw [unit_factorZ, mulDouble_some, h2]

theorem xPos_far_point : xPos (unitTracker 10 10 4 (1 / 20)) { x := 4294967296, z := 5 } = 5 := by
  unfold xPos
  rw [scaledX_far_point, doubleToUInt32_some,
    truncToInt_of_floor _ 4294967301 (by norm_num) (by norm_num) (by norm_num)]
  rfl

theorem zPos_far_point : zPos (unitTracker 10 10 4 (1 / 20)) { x := 4294967296, z := 5 } = 5 := by
  unfold zPos
  rw [scaledZ_far_point, doubleToUInt32_some,
    truncToInt_of_floor _ 5 (by norm_num) (by norm_num) (by norm_num)]
  rfl

theorem boundary_maxX : maxX boundaryTracker = some (49 / 2) := by
  have h1 : natToDouble 2 = some 2 := roundDouble_of_int _ 2 (by norm_num) (by norm_num)
  have h2 : roundDouble ((2 : ℚ) / 2) = some 1 := by
    rw [roundDouble_of_int _ 1 (by norm_num) (by norm_num)]
    norm_num
  have h3 : roundDouble ((1 : ℚ) * (49 / 2)) = some (49 / 2) := by
    rw [roundDouble_of_dyadic _ 49 (-1) (by norm_num) (by norm_num) (by norm_num)
      (by norm_num [abs_lt])]
    norm_num
  show mulDouble (divDouble (natToDouble 2) (some 2)) (some (49 / 2)) = some (49 / 2)
  rw [h1, divDouble_some _ _ (by norm_num), h2, mulDouble_some, h3]

theorem boundary_minX : minX boundaryTracker = some (-(49 / 2)) := by
  unfold minX
  rw [boundary_maxX]
  rfl

theorem roundDouble_two_over_49 :
    roundDouble ((2 : ℚ) / 49) = some (5882252574524729 / 144115188075855872) := by
  rw [roundDouble_of_near _ (-5) 5882252574524729 (by norm_num [abs_of_pos])
    (by norm_num [abs_of_pos]) (by norm_num) (by norm_num) (by norm_num)
    (by norm_num [abs_lt])]
  norm_num

theorem boundary_factorX :
    factorX boundaryTracker = some (5882252574524729 / 144115188075855872) := by
  have h1 : natToDouble 2 = some 2 := roundDouble_of_int _ 2 (by norm_num) (by norm_num)
  have h2 : roundDouble ((49 / 2 : ℚ) - -(49 / 2)) = some 49 := by
    rw [roundDouble_of_int _ 49 (by norm_num) (by norm_num)]
    norm_num
  show divDouble (natToDouble 2) (subDouble (maxX boundaryTracker) (minX boundaryTracker)) = _
  rw [boundary_maxX, boundary_minX, h1, subDouble_some, h2, divDouble_some _ _ (by norm_num),
    roundDouble_two_over_49]

theorem boundary_factorZ : factorZ boundaryTracker = some 1 := by
  have h1 : natToDouble 3 = some 3 := roundDouble_of_int _ 3 (by norm_num) (by norm_num)
  have h2 : roundDouble ((3 : ℚ) * 1) = some 3 := by
    rw [roundDouble_of_int _ 3 (by norm_num) (by norm_num)]
    norm_num
  have h3 : roundDouble ((3 : ℚ) / 3) = some 1 := by
    rw [roundDouble_of_int _ 1 (by norm_num) (by norm_num)]
    norm_num
  show divDouble (natToDouble 3) (mulDouble (natToDouble 3) (some 1)) = some 1
  rw [h1, mulDouble_some, h2, divDouble_some _ _ (by norm_num), h3]

theorem boundary_scaledZ (x : ℚ) : scaledZ boundaryTracker { x := x, z := 3 / 2 } = some (3 / 2) := by
  have h2 : roundDouble ((3 / 2 : ℚ) * 1) = some (3 / 2) := by
    rw [roundDouble_of_dyadic _ 3 (-1) (by norm_num) (by norm_num) (by norm_num)
      (by norm_num [abs_lt])]
    norm_num
  unfold scaledZ
  rw [boundary_factorZ, mulDouble_some, h2]

theorem boundary_zPos (x : ℚ) : zPos boundaryTracker { x := x, z := 3 / 2 } = 1 := by
  unfold zPos
  rw [boundary_scaledZ, doubleToUInt32_some,
    truncToInt_of_floor _ 1 (by norm_num) (by norm_num) (by norm_num)]
  rfl

theorem boundary_scaledX_center :
    scaledX boundaryTracker { x := 0, z := 3 / 2 } =
      some (9007199254740991 / 9007199254740992) := by
  have h1 : roundDouble ((0 : ℚ) - -(49 / 2)) = some (49 / 2) := by
    rw [roundDouble_of_dyadic _ 49 (-1) (by norm_num) (by norm_num) (by norm_num)
      (by norm_num [abs_lt])]
    norm_num
  have h2 : roundDouble ((49 / 2 : ℚ) * (5882252574524729 / 144115188075855872)) =
      some (9007199254740991 / 9007199254740992) := by
    rw [roundDouble_of_near _ (-1) 9007199254740991 (by norm_num [abs_of_pos])
      (by norm_num [abs_of_pos]) (by norm_num) (by norm_num) (by norm_num)
      (by norm_num [abs_lt])]
    norm_num
  unfold scaledX
  rw [boundary_minX, boundary_factorX, subDouble_some, h1, mulDouble_some, h2]

theorem boundary_scaledX_maxX :
    scaledX boundaryTracker { x := 49 / 2, z := 3 / 2 } =
      some (9007199254740991 / 4503599627370496) := by
  have h1 : roundDouble ((49 / 2 : ℚ) - -(49 / 2)) = some 49 := by
    rw [roundDouble_of_int _ 49 (by norm_num) (by norm_num)]
    norm_num
  have h2 : roundDouble ((49 : ℚ) * (5882252574524729 / 144115188075855872)) =
      some (9007199254740991 / 4503599627370496) := by
    rw [roundDouble_of_near _ 0 9007199254740991 (by norm_num [abs_of_pos])
      (by norm_num [abs_of_pos]) (by norm_num) (by norm_num) (by norm_num)
      (by norm_num [abs_lt])]
    norm_num
  unfold scaledX
  rw [boundary_minX, boundary_factorX, subDouble_some, h1, mulDouble_some, h2]

/-! ### Points on a cell boundary (claims C1 and C4) -/

/-- In exact arithmetic a point at `x = maxX` has lateral index `cols`. -/
theorem lateralIndex_at_maxX (t : PolarGridTracking P) (p : Point)
    (hcols : 1 ≤ t.m_grid.cols) (hsx : 0 < t.m_cellSizeX)
    (hp : p.x = (t.m_grid.cols : ℚ) / 2 * t.m_cellSizeX) :
    lateralIndex t p = (t.m_grid.cols : Int) := by
  have hc : (0 : ℚ) < (t.m_grid.cols : ℚ) := by exact_mod_cast hcols
  have hpos : (0 : ℚ) < (t.m_grid.cols : ℚ) / 2 * t.m_cellSizeX := by positivity
  have hval : (p.x - -((t.m_grid.cols : ℚ) / 2 * t.m_cellSizeX)) * (t.m_grid.cols : ℚ) /
      ((t.m_grid.cols : ℚ) / 2 * t.m_cellSizeX - -((t.m_grid.cols : ℚ) / 2 * t.m_cellSizeX)) =
      ((t.m_grid.cols : Int) : ℚ) := by
    rw [hp, sub_neg_eq_add, mul_comm, mul_div_assoc, div_self (ne_of_gt (by linarith)), mul_one]
    norm_cast
  unfold lateralIndex
  rw [hval]
  unfold truncToInt
  rw [if_pos (by exact_mod_cast Int.ofNat_nonneg _), Int.floor_intCast]

/-- Claim C1, evaluated at a failing input. On the grid of 3 rows and 2
columns with `cellSizeX = 24.5` and `cellSizeZ = 1` (`minX = -24.5`,
`maxX = 24.5`) the point `x = 0`, `z = 1.5` has the indices `xIdx = 1` and
`zIdx = 1` of the claim, inside `[1, cols - 1]` and `[1, rows - 1]`. The code
rounds `factorX = 2 / 49` down, the product `24.5 * factorX` is `1 - 2 ^ (-53)`,
so `xPos = 0`, the point is dropped and `map(1, 1)` stays false. -/
theorem getBinaryMapFromPointCloud_drops_point_on_cell_boundary :
    boundaryTracker.m_grid.rows = 3 ∧ boundaryTracker.m_grid.cols = 2 ∧
    lateralIndex boundaryTracker { x := 0, z := 3 / 2 } = 1 ∧
    depthIndex boundaryTracker { x := 0, z := 3 / 2 } = 1 ∧
    factorX boundaryTracker = some (5882252574524729 / 144115188075855872) ∧
    scaledX boundaryTracker { x := 0, z := 3 / 2 } =
      some (9007199254740991 / 9007199254740992) ∧
    xPos boundaryTracker { x := 0, z := 3 / 2 } = 0 ∧
    (getBinaryMapFromPointCloud boundaryTracker [{ x := 0, z := 3 / 2 }]).get 1 1 = false := by
  have hx : xPos boundaryTracker { x := 0, z := 3 / 2 } = 0 := by
    unfold xPos
    rw [boundary_scaledX_center, doubleToUInt32_some,
      truncToInt_of_floor _ 0 (by norm_num) (by norm_num) (by norm_num)]
    rfl
  refine ⟨rfl, rfl, ?_, ?_, boundary_factorX, boundary_scaledX_center, hx, ?_⟩
  · unfold lateralIndex boundaryTracker
    exact truncToInt_of_floor _ 1 (by norm_num) (by norm_num) (by norm_num)
  · unfold depthIndex boundaryTracker
    exact truncToInt_of_floor _ 1 (by norm_num) (by norm_num) (by norm_num)
  · cases h : (getBinaryMapFromPointCloud boundaryTracker [{ x := 0, z := 3 / 2 }]).get 1 1 with
    | false => rfl
    | true =>
      obtain ⟨p, hp, ⟨h1, -⟩, -⟩ := (getBinaryMap_get _ _ 1 1).mp h
      rw [List.mem_singleton.mp hp, hx] at h1
      exact absurd h1 (by decide)

/-- Claim C4, evaluated at a failing input. On the grid of 3 rows and 2
columns with `cellSizeX = 24.5` and `cellSizeZ = 1` the point `x = 24.5`,
`z = 1.5` lies at `x = maxX` and its lateral index in exact arithmetic is
`cols = 2`. The code rounds `factorX = 2 / 49` down, the product
`49 * factorX` is `2 - 2 ^ (-52)`, so `xPos = 1`, the point is not dropped and
`map(1, 1)` is set. -/
theorem getBinaryMapFromPointCloud_marks_point_at_maxX :
    maxX boundaryTracker = some (49 / 2) ∧
    lateralIndex boundaryTracker { x := 49 / 2, z := 3 / 2 } = 2 ∧
    scaledX boundaryTracker { x := 49 / 2, z := 3 / 2 } =
      some (9007199254740991 / 4503599627370496) ∧
    xPos boundaryTracker { x := 49 / 2, z := 3 / 2 } = 1 ∧
    (getBinaryMapFromPointCloud boundaryTracker [{ x := 49 / 2, z := 3 / 2 }]).get 1 1 = true := by
  have hx : xPos boundaryTracker { x := 49 / 2, z := 3 / 2 } = 1 := by
    unfold xPos
    rw [boundary_scaledX_maxX, doubleToUInt32_some,
      truncToInt_of_floor _ 1 (by norm_num) (by norm_num) (by norm_num)]
    rfl
  refine ⟨boundary_maxX, ?_, boundary_scaledX_maxX, hx, ?_⟩
  · exact lateralIndex_at_maxX boundaryTracker _ (by decide)
      (by norm_num [boundaryTracker]) (by norm_num [boundaryTracker])
  · rw [getBinaryMap_get]
    refine ⟨_, List.mem_singleton_self _, ?_, boundary_zPos _, hx⟩
    rw [hx, boundary_zPos]
    decide

/-! ### A point far outside the grid (claims C2 and C3) -/

/-- Claim C2, evaluated at a failing input. On the 10 x 10 grid with unit
cells and the cloud of the single point `x = 2 ^ 32`, `z = 5` the entry
`map(5, 5)` is true, but the lateral index of the point is `2 ^ 32 + 5`, in
exact arithmetic and as the code computes it before the conversion to
`uint32_t`: no point of the cloud has the index pair `(5, 5)`. -/
theorem getBinaryMapFromPointCloud_true_entry_of_far_point :
    (getBinaryMapFromPointCloud (unitTracker 10 10 4 (1 / 20))
      [{ x := 4294967296, z := 5 }]).get 5 5 = true ∧
    lateralIndex (unitTracker 10 10 4 (1 / 20)) { x := 4294967296, z := 5 } = 4294967301 ∧
    scaledX (unitTracker 10 10 4 (1 / 20)) { x := 4294967296, z := 5 } = some 4294967301 ∧
    ∀ p ∈ [({ x := 4294967296, z := 5 } : Point)],
      ¬ (lateralIndex (unitTracker 10 10 4 (1 / 20)) p = 5 ∧
        depthIndex (unitTracker 10 10 4 (1 / 20)) p = 5) := by
  have hidx : lateralIndex (unitTracker 10 10 4 (1 / 20)) { x := 4294967296, z := 5 } =
      4294967301 := by
    unfold lateralIndex unitTracker
    exact truncToInt_of_floor _ 4294967301 (by norm_num) (by norm_num) (by norm_num)
  refine ⟨?_, hidx, scaledX_far_point, ?_⟩
  · rw [getBinaryMap_get]
    refine ⟨_, List.mem_singleton_self _, ?_, zPos_far_point, xPos_far_point⟩
    rw [xPos_far_point, zPos_far_point]
    decide
  · intro p hp h
    rw [List.mem_singleton.mp hp, hidx] at h
    exact absurd h.1 (by decide)

/-- Claim C3, evaluated at a failing input. On the 10 x 10 grid with unit
cells (`minX = -5`, `maxX = 5`) the point `x = 2 ^ 32`, `z = 5` lies outside
`[minX, maxX)`, yet its scaled coordinate `2 ^ 32 + 5` wraps to `xPos = 5`
and `getBinaryMapFromPointCloud` sets `map(5, 5)`. -/
theorem getBinaryMapFromPointCloud_far_point_marks_cell :
    minX (unitTracker 10 10 4 (1 / 20)) = some (-5) ∧
    maxX (unitTracker 10 10 4 (1 / 20)) = some 5 ∧
    ¬ ((-5 : ℚ) ≤ 4294967296 ∧ (4294967296 : ℚ) < 5) ∧
    (getBinaryMapFromPointCloud (unitTracker 10 10 4 (1 / 20))
      [{ x := 4294967296, z := 5 }]).get 5 5 = true := by
  refine ⟨unit_minX, unit_maxX, by norm_num, ?_⟩
  rw [getBinaryMap_get]
  refine ⟨_, List.mem_singleton_self _, ?_, zPos_far_point, xPos_far_point⟩
  rw [xPos_far_point, zPos_far_point]
  decide

/-! ### The window loops inside the `int` range -/

theorem windowLo_eq (i : Nat) (sigma : Int) (h0 : 0 ≤ sigma) (h1 : (i : Int) + sigma < 2147483648) :
    windowLo i sigma = max 0 ((i : Int) - sigma) := by
  unfold windowLo toInt32 toUInt32; omega

theorem windowHi_eq (dim i : Nat) (sigma : Int) (hd : 1 ≤ dim) (hd2 : dim ≤ 2147483648)
    (h0 : 0 ≤ sigma) (h1 : (i : Int) + sigma < 2147483648) :
    windowHi dim i sigma = min ((dim : Int) - 1) ((i : Int) + sigma) := by
  unfold windowHi toInt32 toUInt32; omega

theorem loopRange_window (dim i : Nat) (sigma : Int) (hi : i < dim) (hd2 : dim ≤ 2147483648)
    (h0 : 0 ≤ sigma) (h1 : (i : Int) + sigma < 2147483648) :
    loopRange (windowLo i sigma) (windowHi dim i sigma) =
      some (List.range' (i - sigma.toNat) (min (dim - 1) (i + sigma.toNat) + 1 - (i - sigma.toNat))) := by
  rw [windowLo_eq i sigma h0 h1, windowHi_eq dim i sigma (by omega) hd2 h0 h1]
  unfold loopRange toUInt32
  have e1 : ((min ((dim : Int) - 1) ((i : Int) + sigma)) % 4294967296).toNat = min (dim - 1) (i + sigma.toNat) := by
    omega
  have e2 : ((max 0 ((i : Int) - sigma)) % 4294967296).toNat = i - sigma.toNat := by
    omega
  rw [e1, e2, if_neg (by omega)]

theorem colLoop_eq (map : BinaryMap) (row : Nat) (hrow : row < map.rows) (cs : List Nat)
    (hcs : ∀ c ∈ cs, c < map.cols) (acc : Nat) (hacc : acc < 4294967296) :
    colLoop map row cs acc =
      some ((acc + (cs.map (fun c => if map.get row c then 1 else 0)).sum) % 4294967296) := by
  induction cs generalizing acc with
  | nil => simp [colLoop]; omega
  | cons c rest ih =>
    have hc : c < map.cols := hcs c (List.mem_cons_self _ _)
    have hread : map.read row c = some (map.get row c) := by
      unfold BinaryMap.read; rw [if_pos ⟨hrow, hc⟩]
    simp only [colLoop, hread, List.map_cons, List.sum_cons]
    rw [ih (fun c1 h => hcs c1 (List.mem_cons_of_mem _ h)) _ (Nat.mod_lt _ (by norm_num))]
    congr 1
    omega

theorem rowLoop_eq (map : BinaryMap) (cs : List Nat) (hcs : ∀ c ∈ cs, c < map.cols)
    (rs : List Nat) (hrs : ∀ r ∈ rs, r < map.rows) (acc : Nat) (hacc : acc < 4294967296) :
    rowLoop map (some cs) rs acc = some ((acc + countEntries map rs cs) % 4294967296) := by
  induction rs generalizing acc with
  | nil => simp [rowLoop, countEntries]; omega
  | cons r rest ih =>
    simp only [rowLoop, colLoop_eq map r (hrs r (List.mem_cons_self _ _)) cs hcs acc hacc]
    rw [ih (fun r1 h => hrs r1 (List.mem_cons_of_mem _ h)) _ (Nat.mod_lt _ (by norm_num))]
    simp only [countEntries, List.map_cons, List.sum_cons]
    congr 1
    omega

theorem sum_range'_eq (f : Nat → Nat) (a b : Nat) :
    ((List.range' a (b + 1 - a)).map f).sum = ∑ i in Finset.Icc a b, f i := by
  rfl

theorem countEntries_range' (map : BinaryMap) (a b c d : Nat) :
    countEntries map (List.range' a (b + 1 - a)) (List.range' c (d + 1 - c)) =
      ((Finset.Icc a b ×ˢ Finset.Icc c d).filter (fun p => map.get p.1 p.2 = true)).card := by
  rw [Finset.card_filter, Finset.sum_product]
  unfold countEntries
  rw [sum_range'_eq]
  refine Finset.sum_congr rfl (fun r _ => ?_)
  rw [sum_range'_eq]

theorem clampedWindowCount_eq (map : BinaryMap) (rows cols z x : Nat) (sigmaX sigmaZ : Int)
    (hz : z < rows) (hx : x < cols) (h0x : 0 ≤ sigmaX) (h0z : 0 ≤ sigmaZ) :
    clampedWindowCount map rows cols z x sigmaX sigmaZ =
      ((Finset.Icc (z - sigmaZ.toNat) (min (rows - 1) (z + sigmaZ.toNat)) ×ˢ
        Finset.Icc (x - sigmaX.toNat) (min (cols - 1) (x + sigmaX.toNat))).filter
          (fun p => map.get p.1 p.2 = true)).card := by
  obtain ⟨sx, rfl⟩ := Int.eq_ofNat_of_zero_le h0x
  obtain ⟨sz, rfl⟩ := Int.eq_ofNat_of_zero_le h0z
  unfold clampedWindowCount
  simp only [Int.toNat_ofNat]
  congr 1
  ext ⟨r, c⟩
  simp only [Finset.mem_filter, Finset.mem_product, Finset.mem_range, Finset.mem_Icc]
  constructor
  · rintro ⟨⟨h1, h2⟩, h3, h4, h5, h6, h7⟩
    have a1 : z - sz ≤ r := by omega
    have a2 : r ≤ min (rows - 1) (z + sz) := by omega
    have a3 : x - sx ≤ c := by omega
    have a4 : c ≤ min (cols - 1) (x + sx) := by omega
    exact ⟨⟨⟨a1, a2⟩, a3, a4⟩, h7⟩
  · rintro ⟨⟨⟨h1, h2⟩, h3, h4⟩, h7⟩
    have a1 : r < rows := by omega
    have a2 : c < cols := by omega
    have a3 : max 0 ((z : Int) - sz) ≤ (r : Int) := by omega
    have a4 : (r : Int) ≤ min ((rows : Int) - 1) ((z : Int) + sz) := by omega
    have a5 : max 0 ((x : Int) - sx) ≤ (c : Int) := by omega
    have a6 : (c : Int) ≤ min ((cols : Int) - 1) ((x : Int) + sx) := by omega
    exact ⟨⟨a1, a2⟩, a3, a4, a5, a6, h7⟩

theorem totalOccupied_of_ranges (map : BinaryMap) (rows cols z x : Nat) (sigmaX sigmaZ : Int)
    (rs cs : List Nat)
    (hr : loopRange (windowLo z sigmaZ) (windowHi rows z sigmaZ) = some rs)
    (hc : loopRange (windowLo x sigmaX) (windowHi cols x sigmaX) = some cs) :
    totalOccupied map rows cols z x sigmaX sigmaZ = rowLoop map (some cs) rs 0 := by
  unfold totalOccupied
  rw [hr, hc, Option.some_bind]

theorem totalOccupied_eq (map : BinaryMap) (rows cols z x : Nat) (sigmaX sigmaZ : Int)
    (hmr : map.rows = rows) (hmc : map.cols = cols)
    (hz : z < rows) (hx : x < cols) (hrows : rows ≤ 2147483648) (hcols : cols ≤ 2147483648)
    (h0x : 0 ≤ sigmaX) (h0z : 0 ≤ sigmaZ)
    (h1z : (z : Int) + sigmaZ < 2147483648) (h1x : (x : Int) + sigmaX < 2147483648) :
    totalOccupied map rows cols z x sigmaX sigmaZ =
      some (clampedWindowCount map rows cols z x sigmaX sigmaZ % 4294967296) := by
  have hrs : ∀ r ∈ List.range' (z - sigmaZ.toNat)
      (min (rows - 1) (z + sigmaZ.toNat) + 1 - (z - sigmaZ.toNat)), r < map.rows := by
    intro r hr
    rw [List.mem_range'_1] at hr
    omega
  have hcs : ∀ c ∈ List.range' (x - sigmaX.toNat)
      (min (cols - 1) (x + sigmaX.toNat) + 1 - (x - sigmaX.toNat)), c < map.cols := by
    intro c hc
    rw [List.mem_range'_1] at hc
    omega
  have h0 : (0 : Nat) < 4294967296 := Nat.succ_pos _
  have key := rowLoop_eq map _ hcs _ hrs 0 h0
  rw [countEntries_range', Nat.zero_add,
    ← clampedWindowCount_eq map rows cols z x sigmaX sigmaZ hz hx h0x h0z] at key
  rw [totalOccupied_of_ranges map rows cols z x sigmaX sigmaZ _ _
    (loopRange_window rows z sigmaZ hz hrows h0z h1z)
    (loopRange_window cols x sigmaX hx hcols h0x h1x)]
  exact key

theorem clampedWindowCount_le (map : BinaryMap) (rows cols z x : Nat) (sigmaX sigmaZ : Int)
    (hz : z < rows) (hx : x < cols) (h0x : 0 ≤ sigmaX) (h0z : 0 ≤ sigmaZ) :
    (clampedWindowCount map rows cols z x sigmaX sigmaZ : Int) ≤
      (2 * sigmaZ + 1) * (2 * sigmaX + 1) := by
  rw [clampedWindowCount_eq map rows cols z x sigmaX sigmaZ hz hx h0x h0z]
  have h1 := Finset.card_filter_le
    (Finset.Icc (z - sigmaZ.toNat) (min (rows - 1) (z + sigmaZ.toNat)) ×ˢ
        Finset.Icc (x - sigmaX.toNat) (min (cols - 1) (x + sigmaX.toNat)))
    (fun p => map.get p.1 p.2 = true)
  rw [Finset.card_product, Nat.card_Icc, Nat.card_Icc] at h1
  have h2 : ((min (rows - 1) (z + sigmaZ.toNat) + 1 - (z - sigmaZ.toNat) : Nat) : Int) ≤
      2 * sigmaZ + 1 := by omega
  have h3 : ((min (cols - 1) (x + sigmaX.toNat) + 1 - (x - sigmaX.toNat) : Nat) : Int) ≤
      2 * sigmaX + 1 := by omega
  calc ((_ : Nat) : Int) ≤ ((_ * _ : Nat) : Int) := Int.ofNat_le.mpr h1
    _ = ((min (rows - 1) (z + sigmaZ.toNat) + 1 - (z - sigmaZ.toNat) : Nat) : Int) *
          ((min (cols - 1) (x + sigmaX.toNat) + 1 - (x - sigmaX.toNat) : Nat) : Int) := by
        push_cast; ring
    _ ≤ (2 * sigmaZ + 1) * (2 * sigmaX + 1) :=
        mul_le_mul h2 h3 (Int.ofNat_nonneg _) (by omega)

theorem occupiedProbOf_nonneg (total : Nat) (sigmaX sigmaZ : Int) (h0x : 0 ≤ sigmaX)
    (h0z : 0 ≤ sigmaZ) : 0 ≤ occupiedProbOf total sigmaX sigmaZ := by
  unfold occupiedProbOf
  have hx : (0 : ℚ) ≤ (sigmaX : ℚ) := by exact_mod_cast h0x
  have hz : (0 : ℚ) ≤ (sigmaZ : ℚ) := by exact_mod_cast h0z
  positivity

theorem occupiedProbOf_le_one (total : Nat) (sigmaX sigmaZ : Int) (h0x : 0 ≤ sigmaX)
    (h0z : 0 ≤ sigmaZ) (h : (total : Int) ≤ (2 * sigmaZ + 1) * (2 * sigmaX + 1)) :
    occupiedProbOf total sigmaX sigmaZ ≤ 1 := by
  unfold occupiedProbOf
  have hx : (0 : ℚ) ≤ (sigmaX : ℚ) := by exact_mod_cast h0x
  have hz : (0 : ℚ) ≤ (sigmaZ : ℚ) := by exact_mod_cast h0z
  have hq : ((total : Int) : ℚ) ≤ (((2 * sigmaZ + 1) * (2 * sigmaX + 1) : Int) : ℚ) := by
    exact_mod_cast h
  push_cast at hq
  rw [div_le_one (by positivity)]
  exact hq

/-! ### The loop over the cells -/

theorem cellOrder_mem (rows cols z x : Nat) :
    (z, x) ∈ cellOrder rows cols ↔ z < rows ∧ x < cols := by
  unfold cellOrder
  simp only [List.mem_flatMap, List.mem_range, List.mem_map, Prod.mk.injEq]
  constructor
  · rintro ⟨a, ha, b, hb, rfl, rfl⟩
    exact ⟨ha, hb⟩
  · rintro ⟨hz, hx⟩
    exact ⟨z, hz, x, hx, rfl, rfl⟩

theorem cellOrder_nodup (rows cols : Nat) : (cellOrder rows cols).Nodup := by
  have h : cellOrder rows cols = (List.range rows).product (List.range cols) := rfl
  rw [h]
  exact List.Nodup.product (List.nodup_range rows) (List.nodup_range cols)

theorem CellGrid.set_cell_same (g : CellGrid P) (z x : Nat) (c : Cell P) :
    (g.set z x c).cell z x = c := by
  simp [CellGrid.set]

theorem CellGrid.set_cell_other (g : CellGrid P) (z x z1 x1 : Nat) (c : Cell P)
    (h : (z1, x1) ≠ (z, x)) : (g.set z x c).cell z1 x1 = g.cell z1 x1 := by
  have h1 : ¬ (z1 = z ∧ x1 = x) := by
    rintro ⟨rfl, rfl⟩
    exact h rfl
  simp [CellGrid.set, h1]

theorem measurementLoop_some (t : PolarGridTracking P) (fresh : Nat → Nat → Nat → P)
    (map : BinaryMap) (order : List (Nat × Nat)) (hnd : order.Nodup) (g g1 : CellGrid P)
    (h : measurementLoop t fresh map order g = some g1) :
    g1.rows = g.rows ∧ g1.cols = g.cols ∧
    (∀ z x, (z, x) ∈ order → measureCell t fresh map z x (g.cell z x) = some (g1.cell z x)) ∧
    (∀ z x, (z, x) ∉ order → g1.cell z x = g.cell z x) := by
  induction order generalizing g with
  | nil =>
    simp only [measurementLoop, Option.some.injEq] at h
    subst h
    simp
  | cons zx rest ih =>
    obtain ⟨z0, x0⟩ := zx
    rw [List.nodup_cons] at hnd
    simp only [measurementLoop, measureStep, Option.bind_eq_some, Option.map_eq_some'] at h
    obtain ⟨g2, ⟨c, hc, rfl⟩, h2⟩ := h
    obtain ⟨hr, hcl, hin, hout⟩ := ih hnd.2 _ h2
    refine ⟨hr, hcl, ?_, ?_⟩
    · intro z x hzx
      rcases List.mem_cons.mp hzx with heq | hmem
      · obtain ⟨rfl, rfl⟩ := Prod.mk.inj heq
        rw [hout z x hnd.1, CellGrid.set_cell_same]
        exact hc
      · have hne : (z, x) ≠ (z0, x0) := by
          rintro heq
          rw [heq] at hmem
          exact hnd.1 hmem
        have := hin z x hmem
        rw [CellGrid.set_cell_other g z0 x0 z x c hne] at this
        exact this
    · intro z x hzx
      have hne : (z, x) ≠ (z0, x0) := fun heq => hzx (heq ▸ List.mem_cons_self _ _)
      rw [hout z x (fun hm => hzx (List.mem_cons_of_mem _ hm)),
        CellGrid.set_cell_other g z0 x0 z x c hne]

theorem measurementLoop_isSome (t : PolarGridTracking P) (fresh : Nat → Nat → Nat → P)
    (map : BinaryMap) (order : List (Nat × Nat)) (hnd : order.Nodup) (g : CellGrid P)
    (h : ∀ z x, (z, x) ∈ order → ∃ c, measureCell t fresh map z x (g.cell z x) = some c) :
    ∃ g1, measurementLoop t fresh map order g = some g1 := by
  induction order generalizing g with
  | nil => exact ⟨g, rfl⟩
  | cons zx rest ih =>
    obtain ⟨z0, x0⟩ := zx
    rw [List.nodup_cons] at hnd
    obtain ⟨c, hc⟩ := h z0 x0 (List.mem_cons_self _ _)
    have hrest : ∀ z x, (z, x) ∈ rest →
        ∃ c1, measureCell t fresh map z x ((g.set z0 x0 c).cell z x) = some c1 := by
      intro z x hm
      have hne : (z, x) ≠ (z0, x0) := by
        rintro heq
        rw [heq] at hm
        exact hnd.1 hm
      rw [CellGrid.set_cell_other g z0 x0 z x c hne]
      exact h z x (List.mem_cons_of_mem _ hm)
    obtain ⟨g1, hg1⟩ := ih hnd.2 (g.set z0 x0 c) hrest
    refine ⟨g1, ?_⟩
    simp only [measurementLoop, measureStep, hc, Option.map_some', Option.some_bind]
    exact hg1

theorem measureCell_eq (t : PolarGridTracking P) (fresh : Nat → Nat → Nat → P) (map : BinaryMap)
    (z x : Nat) (cell : Cell P) (total : Nat) (here : Bool)
    (h1 : totalOccupied map t.m_grid.rows t.m_grid.cols z x cell.sigmaX cell.sigmaZ = some total)
    (h2 : map.read z x = some here) :
    (spawnGate here cell (occupiedProbOf total cell.sigmaX cell.sigmaZ) t.m_threshProbForCreation →
      measureCell t fresh map z x cell = some
        { cell with
          occupiedProb := occupiedProbOf total cell.sigmaX cell.sigmaZ
          particles := cell.particles ++ (List.range t.m_particlesPerCell).map (fresh z x) }) ∧
    (¬ spawnGate here cell (occupiedProbOf total cell.sigmaX cell.sigmaZ)
        t.m_threshProbForCreation →
      measureCell t fresh map z x cell =
        some { cell with occupiedProb := occupiedProbOf total cell.sigmaX cell.sigmaZ }) := by
  have hiff : (here && cell.particles.isEmpty &&
      decide (occupiedProbOf total cell.sigmaX cell.sigmaZ > t.m_threshProbForCreation)) = true ↔
      spawnGate here cell (occupiedProbOf total cell.sigmaX cell.sigmaZ)
        t.m_threshProbForCreation := by
    unfold spawnGate
    simp only [Bool.and_eq_true, decide_eq_true_eq, List.isEmpty_iff, and_assoc]
  unfold measureCell
  rw [h1, Option.some_bind]
  simp only [h2, Option.some_bind, Cell.empty, Cell.setOccupiedProb, Cell.createParticles]
  constructor
  · intro hg
    rw [if_pos (hiff.mpr hg)]
  · intro hg
    rw [if_neg (fun h => hg (hiff.mp h))]

theorem measureCell_some (t : PolarGridTracking P) (fresh : Nat → Nat → Nat → P) (map : BinaryMap)
    (z x : Nat) (cell c1 : Cell P) (h : measureCell t fresh map z x cell = some c1) :
    ∃ total here,
      totalOccupied map t.m_grid.rows t.m_grid.cols z x cell.sigmaX cell.sigmaZ = some total ∧
      map.read z x = some here := by
  unfold measureCell at h
  simp only [Option.bind_eq_some] at h
  obtain ⟨total, h1, here, h2, -⟩ := h
  exact ⟨total, here, h1, h2⟩

theorem estimate_some (t : PolarGridTracking P) (fresh : Nat → Nat → Nat → P)
    (map : BinaryMap) (t1 : PolarGridTracking P) (h : estimate t fresh map = some t1) :
    t1.m_grid.rows = t.m_grid.rows ∧ t1.m_grid.cols = t.m_grid.cols ∧
    t1.m_cellSizeX = t.m_cellSizeX ∧ t1.m_cellSizeZ = t.m_cellSizeZ ∧
    t1.m_particlesPerCell = t.m_particlesPerCell ∧
    t1.m_threshProbForCreation = t.m_threshProbForCreation ∧
    (∀ z x, z < t.m_grid.rows → x < t.m_grid.cols →
      measureCell t fresh map z x (t.m_grid.cell z x) = some (t1.m_grid.cell z x)) ∧
    (∀ z x, ¬ (z < t.m_grid.rows ∧ x < t.m_grid.cols) →
      t1.m_grid.cell z x = t.m_grid.cell z x) := by
  unfold estimate at h
  rw [Option.map_eq_some'] at h
  obtain ⟨g1, hg, rfl⟩ := h
  obtain ⟨hr, hc, hin, hout⟩ :=
    measurementLoop_some t fresh map _ (cellOrder_nodup _ _) _ _ hg
  refine ⟨hr, hc, rfl, rfl, rfl, rfl, ?_, ?_⟩
  · intro z x hz hx
    exact hin z x ((cellOrder_mem _ _ z x).mpr ⟨hz, hx⟩)
  · intro z x hzx
    exact hout z x (fun hm => hzx ((cellOrder_mem _ _ z x).mp hm))

theorem estimate_isSome_of_cells (t : PolarGridTracking P) (fresh : Nat → Nat → Nat → P)
    (map : BinaryMap)
    (h : ∀ z x, z < t.m_grid.rows → x < t.m_grid.cols →
      ∃ c, measureCell t fresh map z x (t.m_grid.cell z x) = some c) :
    ∃ t1, estimate t fresh map = some t1 := by
  obtain ⟨g1, hg⟩ := measurementLoop_isSome t fresh map _ (cellOrder_nodup _ _) t.m_grid
    (fun z x hm => h z x ((cellOrder_mem _ _ z x).mp hm).1 ((cellOrder_mem _ _ z x).mp hm).2)
  refine ⟨{ t with m_grid := g1 }, ?_⟩
  unfold estimate
  rw [hg, Option.map_some']

theorem read_of_shape (map : BinaryMap) (rows cols z x : Nat) (hmr : map.rows = rows)
    (hmc : map.cols = cols) (hz : z < rows) (hx : x < cols) :
    map.read z x = some (map.get z x) := by
  unfold BinaryMap.read
  rw [if_pos ⟨hmr ▸ hz, hmc ▸ hx⟩]

theorem measureCell_isSome_of_fitsInt (t : PolarGridTracking P) (fresh : Nat → Nat → Nat → P)
    (map : BinaryMap) (hmr : map.rows = t.m_grid.rows) (hmc : map.cols = t.m_grid.cols)
    (hfit : t.m_grid.fitsInt) (z x : Nat) (hz : z < t.m_grid.rows) (hx : x < t.m_grid.cols) :
    ∃ c, measureCell t fresh map z x (t.m_grid.cell z x) = some c := by
  obtain ⟨hrows, hcols, hcell⟩ := hfit
  obtain ⟨h0x, h0z, h1z, h1x⟩ := hcell z x hz hx
  have h1 := totalOccupied_eq map _ _ z x _ _ hmr hmc hz hx hrows hcols h0x h0z h1z h1x
  have h2 := read_of_shape map _ _ z x hmr hmc hz hx
  by_cases hg : spawnGate (map.get z x) (t.m_grid.cell z x)
      (occupiedProbOf (clampedWindowCount map t.m_grid.rows t.m_grid.cols z x
        (t.m_grid.cell z x).sigmaX (t.m_grid.cell z x).sigmaZ % 4294967296)
        (t.m_grid.cell z x).sigmaX (t.m_grid.cell z x).sigmaZ) t.m_threshProbForCreation
  · exact ⟨_, (measureCell_eq t fresh map z x _ _ _ h1 h2).1 hg⟩
  · exact ⟨_, (measureCell_eq t fresh map z x _ _ _ h1 h2).2 hg⟩

theorem estimate_isSome_of_fitsInt (t : PolarGridTracking P) (fresh : Nat → Nat → Nat → P)
    (map : BinaryMap) (hmr : map.rows = t.m_grid.rows) (hmc : map.cols = t.m_grid.cols)
    (hfit : t.m_grid.fitsInt) : ∃ t1, estimate t fresh map = some t1 :=
  estimate_isSome_of_cells t fresh map
    (fun z x hz hx => measureCell_isSome_of_fitsInt t fresh map hmr hmc hfit z x hz hx)

/-- What a completed run leaves on a cell, in terms of the counter and the
map entry read for it. -/
theorem estimate_cell (t : PolarGridTracking P) (fresh : Nat → Nat → Nat → P)
    (map : BinaryMap) (t1 : PolarGridTracking P) (h : estimate t fresh map = some t1)
    (z x : Nat) (hz : z < t.m_grid.rows) (hx : x < t.m_grid.cols) :
    ∃ total here,
      totalOccupied map t.m_grid.rows t.m_grid.cols z x (t.m_grid.cell z x).sigmaX
        (t.m_grid.cell z x).sigmaZ = some total ∧
      map.read z x = some here ∧
      (t1.m_grid.cell z x).sigmaX = (t.m_grid.cell z x).sigmaX ∧
      (t1.m_grid.cell z x).sigmaZ = (t.m_grid.cell z x).sigmaZ ∧
      (t1.m_grid.cell z x).occupiedProb =
        occupiedProbOf total (t.m_grid.cell z x).sigmaX (t.m_grid.cell z x).sigmaZ ∧
      (spawnGate here (t.m_grid.cell z x) (t1.m_grid.cell z x).occupiedProb
          t.m_threshProbForCreation →
        (t1.m_grid.cell z x).particles =
          (t.m_grid.cell z x).particles ++ (List.range t.m_particlesPerCell).map (fresh z x)) ∧
      (¬ spawnGate here (t.m_grid.cell z x) (t1.m_grid.cell z x).occupiedProb
          t.m_threshProbForCreation →
        (t1.m_grid.cell z x).particles = (t.m_grid.cell z x).particles) := by
  have hc := (estimate_some t fresh map t1 h).2.2.2.2.2.2.1 z x hz hx
  obtain ⟨total, here, h1, h2⟩ := measureCell_some t fresh map z x _ _ hc
  refine ⟨total, here, h1, h2, ?_⟩
  by_cases hg : spawnGate here (t.m_grid.cell z x)
      (occupiedProbOf total (t.m_grid.cell z x).sigmaX (t.m_grid.cell z x).sigmaZ)
      t.m_threshProbForCreation
  · have e := (measureCell_eq t fresh map z x _ _ _ h1 h2).1 hg
    rw [hc, Option.some.injEq] at e
    rw [e]
    exact ⟨rfl, rfl, rfl, fun _ => rfl, fun hn => absurd hg hn⟩
  · have e := (measureCell_eq t fresh map z x _ _ _ h1 h2).2 hg
    rw [hc, Option.some.injEq] at e
    rw [e]
    exact ⟨rfl, rfl, rfl, fun hp => absurd hp hg, fun _ => rfl⟩

/-! ### The scenario of the specification -/

theorem scenario_fitsInt : scenarioTracker.m_grid.fitsInt := by
  refine ⟨by decide, by decide, ?_⟩
  intro z x hz hx
  have hz1 : z < 10 := hz
  have hx1 : x < 10 := hx
  simp only [scenarioTracker, unitTracker, emptyCell]
  omega

theorem scenario_count_center : clampedWindowCount scenarioMap 10 10 5 5 1 1 = 1 := by
  decide

theorem read_get (map : BinaryMap) (z x : Nat) (here : Bool) (h : map.read z x = some here) :
    here = map.get z x := by
  unfold BinaryMap.read at h
  split at h
  · exact (Option.some.inj h).symm
  · cases h

theorem clampedWindowCount_eq_zero (map : BinaryMap) (rows cols z x : Nat) (sigmaX sigmaZ : Int)
    (h : ∀ r c : Nat, max 0 ((z : Int) - sigmaZ) ≤ (r : Int) →
      (r : Int) ≤ min ((rows : Int) - 1) ((z : Int) + sigmaZ) →
      max 0 ((x : Int) - sigmaX) ≤ (c : Int) →
      (c : Int) ≤ min ((cols : Int) - 1) ((x : Int) + sigmaX) → map.get r c = false) :
    clampedWindowCount map rows cols z x sigmaX sigmaZ = 0 := by
  unfold clampedWindowCount
  rw [Finset.card_eq_zero, Finset.filter_eq_empty_iff]
  rintro ⟨r, c⟩ _ ⟨h1, h2, h3, h4, h5⟩
  rw [h r c h1 h2 h3 h4] at h5
  cases h5

theorem occupiedProbOf_zero (sigmaX sigmaZ : Int) : occupiedProbOf 0 sigmaX sigmaZ = 0 := by
  unfold occupiedProbOf
  simp

/-- On a grid that fits `int` and a map of its shape, the counter of a cell
is the clamped window count modulo `2 ^ 32`. -/
theorem estimate_cell_prob (t : PolarGridTracking P) (fresh : Nat → Nat → Nat → P)
    (map : BinaryMap) (hmr : map.rows = t.m_grid.rows) (hmc : map.cols = t.m_grid.cols)
    (hfit : t.m_grid.fitsInt) (t1 : PolarGridTracking P) (h : estimate t fresh map = some t1)
    (z x : Nat) (hz : z < t.m_grid.rows) (hx : x < t.m_grid.cols) :
    (t1.m_grid.cell z x).occupiedProb =
      occupiedProbOf (clampedWindowCount map t.m_grid.rows t.m_grid.cols z x
        (t.m_grid.cell z x).sigmaX (t.m_grid.cell z x).sigmaZ % 4294967296)
        (t.m_grid.cell z x).sigmaX (t.m_grid.cell z x).sigmaZ := by
  obtain ⟨total, here, h1, -, -, -, hp, -⟩ := estimate_cell t fresh map t1 h z x hz hx
  obtain ⟨hrows, hcols, hcell⟩ := hfit
  obtain ⟨h0x, h0z, h1z, h1x⟩ := hcell z x hz hx
  rw [totalOccupied_eq map _ _ z x _ _ hmr hmc hz hx hrows hcols h0x h0z h1z h1x,
    Option.some.injEq] at h1
  rw [hp, h1]

/-- Claim C5, amended. On a grid whose window index arithmetic fits `int`
(`CellGrid.fitsInt`: at most `2 ^ 31` rows and columns, non-negative radii,
`z + sigmaZ` and `x + sigmaX` below `2 ^ 31`) and for every binary map of the
grid's shape, the estimator completes and the `occupiedProb` it stores on each
cell lies in `[0, 1]`; it is 0 whenever the map has no occupied entry in the
cell's clamped window. -/
theorem occupiedProb_in_unit_interval (t : PolarGridTracking P) (fresh : Nat → Nat → Nat → P)
    (map : BinaryMap) (hmr : map.rows = t.m_grid.rows) (hmc : map.cols = t.m_grid.cols)
    (hfit : t.m_grid.fitsInt) :
    ∃ t1, estimate t fresh map = some t1 ∧
      ∀ z x, z < t.m_grid.rows → x < t.m_grid.cols →
        0 ≤ (t1.m_grid.cell z x).occupiedProb ∧ (t1.m_grid.cell z x).occupiedProb ≤ 1 ∧
        ((∀ r c : Nat, max 0 ((z : Int) - (t.m_grid.cell z x).sigmaZ) ≤ (r : Int) →
            (r : Int) ≤ min ((t.m_grid.rows : Int) - 1) ((z : Int) + (t.m_grid.cell z x).sigmaZ) →
            max 0 ((x : Int) - (t.m_grid.cell z x).sigmaX) ≤ (c : Int) →
            (c : Int) ≤ min ((t.m_grid.cols : Int) - 1) ((x : Int) + (t.m_grid.cell z x).sigmaX) →
            map.get r c = false) →
          (t1.m_grid.cell z x).occupiedProb = 0) := by
  obtain ⟨t1, h⟩ := estimate_isSome_of_fitsInt t fresh map hmr hmc hfit
  refine ⟨t1, h, ?_⟩
  intro z x hz hx
  have hp := estimate_cell_prob t fresh map hmr hmc hfit t1 h z x hz hx
  obtain ⟨h0x, h0z, -, -⟩ := hfit.2.2 z x hz hx
  refine ⟨?_, ?_, ?_⟩
  · rw [hp]
    exact occupiedProbOf_nonneg _ _ _ h0x h0z
  · rw [hp]
    refine occupiedProbOf_le_one _ _ _ h0x h0z ?_
    have hle := clampedWindowCount_le map t.m_grid.rows t.m_grid.cols z x _ _ hz hx h0x h0z
    have hmod : clampedWindowCount map t.m_grid.rows t.m_grid.cols z x
        (t.m_grid.cell z x).sigmaX (t.m_grid.cell z x).sigmaZ % 4294967296 ≤
        clampedWindowCount map t.m_grid.rows t.m_grid.cols z x
        (t.m_grid.cell z x).sigmaX (t.m_grid.cell z x).sigmaZ := Nat.mod_le _ _
    exact le_trans (Int.ofNat_le.mpr hmod) hle
  · intro hfree
    rw [hp, clampedWindowCount_eq_zero map _ _ z x _ _ hfree]
    exact occupiedProbOf_zero _ _

/-- Witness for claim C5: the scenario grid fits `int`; cell `(5, 5)` has a
probability at most 1 and the corner cell `(0, 0)`, whose window is free, has
probability 0. -/
theorem occupiedProb_in_unit_interval_witness :
    ∃ t1, estimate scenarioTracker numberedParticle scenarioMap = some t1 ∧
      (t1.m_grid.cell 5 5).occupiedProb ≤ 1 ∧ (t1.m_grid.cell 0 0).occupiedProb = 0 := by
  obtain ⟨t1, h, hall⟩ := occupiedProb_in_unit_interval scenarioTracker numberedParticle
    scenarioMap rfl rfl scenario_fitsInt
  refine ⟨t1, h, (hall 5 5 (by decide) (by decide)).2.1, ?_⟩
  refine (hall 0 0 (by decide) (by decide)).2.2 ?_
  intro r c h1 h2 h3 h4
  have hr : r ≤ 1 := by
    simp only [scenarioTracker, unitTracker, emptyCell] at h2
    omega
  have hne : ¬ (r = 5 ∧ c = 5) := by omega
  simp only [scenarioMap, BinaryMap.set, BinaryMap.Zero]
  rw [if_neg hne]

theorem countEntries_fullMap (rows cols : Nat) (rs cs : List Nat) :
    countEntries (fullMap rows cols) rs cs = rs.length * cs.length := by
  unfold countEntries
  have hin : ∀ r : Nat,
      (cs.map (fun c => if (fullMap rows cols).get r c then 1 else 0)).sum = cs.length := by
    intro r
    induction cs with
    | nil => rfl
    | cons c rest ih =>
      simp only [List.map_cons, List.sum_cons, List.length_cons, ih]
      simp only [fullMap, if_true]
      omega
  simp only [hin]
  induction rs with
  | nil => simp
  | cons r rest ih =>
    simp only [List.map_cons, List.sum_cons, List.length_cons, ih]
    rw [Nat.succ_mul]
    omega

theorem tall_rowRange (z : Nat) (hz : z < 2147483649) :
    ∃ lo, loopRange (windowLo z 0) (windowHi 2147483649 z 0) =
      some (List.range' lo (2147483649 - lo)) ∧ (z = 0 → lo = 0) := by
  have e1 : toUInt32 (windowHi 2147483649 z 0) = 2147483648 := by
    unfold windowHi toInt32 toUInt32
    omega
  refine ⟨toUInt32 (windowLo z 0), ?_, ?_⟩
  · unfold loopRange
    rw [e1, if_neg (by decide)]
  · rintro rfl
    decide

theorem tall_totalOccupied (z : Nat) (hz : z < 2147483649) :
    ∃ total, totalOccupied (fullMap 2147483649 1) 2147483649 1 z 0 0 0 = some total ∧
      (z = 0 → total = 2147483649) := by
  obtain ⟨lo, hlo, hlo0⟩ := tall_rowRange z hz
  have hcol : loopRange (windowLo 0 0) (windowHi 1 0 0) = some (List.range' 0 1) := by decide
  have hrs : ∀ r ∈ List.range' lo (2147483649 - lo), r < (fullMap 2147483649 1).rows := by
    intro r hr
    rw [List.mem_range'_1] at hr
    show r < 2147483649
    omega
  have hcs : ∀ c ∈ List.range' 0 1, c < (fullMap 2147483649 1).cols := by
    intro c hc
    rw [List.mem_range'_1] at hc
    show c < 1
    omega
  have key := rowLoop_eq (fullMap 2147483649 1) _ hcs _ hrs 0 (by decide)
  rw [countEntries_fullMap, List.length_range', List.length_range'] at key
  refine ⟨(0 + (2147483649 - lo) * 1) % 4294967296, ?_, ?_⟩
  · rw [totalOccupied_of_ranges _ _ _ z 0 0 0 _ _ hlo hcol]
    exact key
  · intro h0
    rw [hlo0 h0]

/-- Claim C5 fails as stated. On a grid of `2 ^ 31 + 1` rows and one column
with radii zero, `(int)(rows - 1)` is `-2 ^ 31`, so the window of cell `(0, 0)`
runs over all rows; on the all-occupied map the estimator completes and
stores `occupiedProb = 2 ^ 31 + 1` on that cell, which is not at most 1. -/
theorem occupiedProb_exceeds_one_on_tall_grid :
    ∃ t1, estimate tallTracker numberedParticle (fullMap 2147483649 1) = some t1 ∧
      0 ≤ (tallTracker.m_grid.cell 0 0).sigmaX ∧ 0 ≤ (tallTracker.m_grid.cell 0 0).sigmaZ ∧
      (t1.m_grid.cell 0 0).occupiedProb = 2147483649 ∧
      ¬ (t1.m_grid.cell 0 0).occupiedProb ≤ 1 := by
  have hcells : ∀ z x, z < tallTracker.m_grid.rows → x < tallTracker.m_grid.cols →
      ∃ c, measureCell tallTracker numberedParticle (fullMap 2147483649 1) z x
        (tallTracker.m_grid.cell z x) = some c := by
    intro z x hz hx
    have hx0 : x = 0 := by
      have : x < 1 := hx
      omega
    subst hx0
    obtain ⟨total, htot0, -⟩ := tall_totalOccupied z hz
    have htot : totalOccupied (fullMap 2147483649 1) tallTracker.m_grid.rows
        tallTracker.m_grid.cols z 0 (tallTracker.m_grid.cell z 0).sigmaX
        (tallTracker.m_grid.cell z 0).sigmaZ = some total := htot0
    have hread : (fullMap 2147483649 1).read z 0 = some true := by
      unfold BinaryMap.read
      rw [if_pos ⟨hz, by decide⟩]
      rfl
    by_cases hg : spawnGate true (tallTracker.m_grid.cell z 0)
        (occupiedProbOf total (tallTracker.m_grid.cell z 0).sigmaX
          (tallTracker.m_grid.cell z 0).sigmaZ) tallTracker.m_threshProbForCreation
    · exact ⟨_, (measureCell_eq tallTracker numberedParticle _ z 0 (tallTracker.m_grid.cell z 0)
        total true htot hread).1 hg⟩
    · exact ⟨_, (measureCell_eq tallTracker numberedParticle _ z 0 (tallTracker.m_grid.cell z 0)
        total true htot hread).2 hg⟩
  obtain ⟨t1, h⟩ := estimate_isSome_of_cells tallTracker numberedParticle _ hcells
  obtain ⟨total, here, h1, -, -, -, hp, -⟩ :=
    estimate_cell tallTracker numberedParticle _ t1 h 0 0
      (show (0 : Nat) < 2147483649 by omega) (show (0 : Nat) < 1 by omega)
  obtain ⟨total0, htot0, hval⟩ := tall_totalOccupied 0 (by omega)
  have ht : total = 2147483649 := by
    have h1a : totalOccupied (fullMap 2147483649 1) 2147483649 1 0 0 0 0 = some total := h1
    have e : some total = some total0 := h1a.symm.trans htot0
    rw [Option.some.injEq] at e
    rw [e, hval rfl]
  have hprob : (t1.m_grid.cell 0 0).occupiedProb = 2147483649 := by
    rw [hp, ht]
    simp only [tallTracker, emptyCell, occupiedProbOf]
    norm_num
  refine ⟨t1, h, le_refl _, le_refl _, hprob, ?_⟩
  rw [hprob]
  norm_num

/-! ### A second run (claim C6) -/

theorem measureCell_congr (t t1 : PolarGridTracking P) (fresh : Nat → Nat → Nat → P)
    (map : BinaryMap) (z x : Nat) (cell : Cell P)
    (hr : t1.m_grid.rows = t.m_grid.rows) (hc : t1.m_grid.cols = t.m_grid.cols)
    (hn : t1.m_particlesPerCell = t.m_particlesPerCell)
    (hth : t1.m_threshProbForCreation = t.m_threshProbForCreation) :
    measureCell t1 fresh map z x cell = measureCell t fresh map z x cell := by
  unfold measureCell
  rw [hr, hc, hn, hth]

theorem measureCell_result (t : PolarGridTracking P) (fresh : Nat → Nat → Nat → P)
    (map : BinaryMap) (z x : Nat) (cell c1 : Cell P) (total : Nat) (here : Bool)
    (h1 : totalOccupied map t.m_grid.rows t.m_grid.cols z x cell.sigmaX cell.sigmaZ = some total)
    (h2 : map.read z x = some here)
    (h : measureCell t fresh map z x cell = some c1) :
    c1.sigmaX = cell.sigmaX ∧ c1.sigmaZ = cell.sigmaZ ∧
    c1.occupiedProb = occupiedProbOf total cell.sigmaX cell.sigmaZ ∧
    (spawnGate here cell (occupiedProbOf total cell.sigmaX cell.sigmaZ)
        t.m_threshProbForCreation →
      c1.particles = cell.particles ++ (List.range t.m_particlesPerCell).map (fresh z x)) ∧
    (¬ spawnGate here cell (occupiedProbOf total cell.sigmaX cell.sigmaZ)
        t.m_threshProbForCreation → c1.particles = cell.particles) := by
  by_cases hg : spawnGate here cell (occupiedProbOf total cell.sigmaX cell.sigmaZ)
      t.m_threshProbForCreation
  · have e := (measureCell_eq t fresh map z x cell total here h1 h2).1 hg
    rw [h, Option.some.injEq] at e
    rw [e]
    exact ⟨rfl, rfl, rfl, fun _ => rfl, fun hn => absurd hg hn⟩
  · have e := (measureCell_eq t fresh map z x cell total here h1 h2).2 hg
    rw [h, Option.some.injEq] at e
    rw [e]
    exact ⟨rfl, rfl, rfl, fun hp => absurd hp hg, fun _ => rfl⟩

theorem measureCell_idem (t : PolarGridTracking P) (fresh fresh2 : Nat → Nat → Nat → P)
    (map : BinaryMap) (z x : Nat) (cell c1 : Cell P)
    (h : measureCell t fresh map z x cell = some c1) :
    measureCell t fresh2 map z x c1 = some c1 := by
  obtain ⟨total, here, h1, h2⟩ := measureCell_some t fresh map z x cell c1 h
  obtain ⟨hsx, hsz, hp, hyes, hno⟩ := measureCell_result t fresh map z x cell c1 total here h1 h2 h
  have h1a : totalOccupied map t.m_grid.rows t.m_grid.cols z x c1.sigmaX c1.sigmaZ =
      some total := by
    rw [hsx, hsz]
    exact h1
  have hpa : occupiedProbOf total c1.sigmaX c1.sigmaZ = c1.occupiedProb := by
    rw [hsx, hsz, hp]
  by_cases hg2 : spawnGate here c1 (occupiedProbOf total c1.sigmaX c1.sigmaZ)
      t.m_threshProbForCreation
  · rw [(measureCell_eq t fresh2 map z x c1 total here h1a h2).1 hg2]
    have hn : t.m_particlesPerCell = 0 := by
      by_cases hg : spawnGate here cell (occupiedProbOf total cell.sigmaX cell.sigmaZ)
          t.m_threshProbForCreation
      · have hlen := congrArg List.length ((hyes hg).symm.trans hg2.2.1)
        simp only [List.length_append, List.length_map, List.length_range,
          List.length_nil] at hlen
        omega
      · exfalso
        apply hg
        refine ⟨hg2.1, ?_, ?_⟩
        · rw [← hno hg]
          exact hg2.2.1
        · have := hg2.2.2
          rw [hsx, hsz] at this
          exact this
    rw [hpa, hn]
    cases c1
    simp
  · rw [(measureCell_eq t fresh2 map z x c1 total here h1a h2).2 hg2, hpa]

theorem CellGrid.set_self (g : CellGrid P) (z x : Nat) : g.set z x (g.cell z x) = g := by
  unfold CellGrid.set
  have hfun : (fun z1 x1 => if z1 = z ∧ x1 = x then g.cell z x else g.cell z1 x1) = g.cell := by
    funext z1 x1
    split
    · rename_i hzx
      rw [hzx.1, hzx.2]
    · rfl
  rw [hfun]

theorem measurementLoop_fixed (t : PolarGridTracking P) (fresh : Nat → Nat → Nat → P)
    (map : BinaryMap) (order : List (Nat × Nat)) (g : CellGrid P)
    (h : ∀ z x, (z, x) ∈ order → measureCell t fresh map z x (g.cell z x) = some (g.cell z x)) :
    measurementLoop t fresh map order g = some g := by
  induction order with
  | nil => rfl
  | cons zx rest ih =>
    obtain ⟨z0, x0⟩ := zx
    simp only [measurementLoop, measureStep, h z0 x0 (List.mem_cons_self _ _), Option.map_some',
      Option.some_bind, CellGrid.set_self]
    exact ih (fun z x hm => h z x (List.mem_cons_of_mem _ hm))

/-- Claim C6. Running the estimator a second time on the same binary map
changes nothing: when the first run yields the tracker `t1`, the second run
on `t1` yields `t1` again, so every cell keeps its particle count and its
`occupiedProb`, and no cell spawns a second batch. The first run completes on
every grid that fits `int`. -/
theorem estimate_idempotent (t : PolarGridTracking P) (fresh fresh2 : Nat → Nat → Nat → P)
    (map : BinaryMap) :
    (map.rows = t.m_grid.rows → map.cols = t.m_grid.cols → t.m_grid.fitsInt →
      ∃ t1, estimate t fresh map = some t1) ∧
    ∀ t1, estimate t fresh map = some t1 →
      estimate t1 fresh2 map = some t1 ∧
      ∀ t2, estimate t1 fresh2 map = some t2 → ∀ z x,
        (t2.m_grid.cell z x).particles.length = (t1.m_grid.cell z x).particles.length ∧
        (t2.m_grid.cell z x).occupiedProb = (t1.m_grid.cell z x).occupiedProb := by
  refine ⟨fun hmr hmc hfit => estimate_isSome_of_fitsInt t fresh map hmr hmc hfit, ?_⟩
  intro t1 h
  have key : estimate t1 fresh2 map = some t1 := by
    obtain ⟨hr, hc, -, -, hn, hth, hin, -⟩ := estimate_some t fresh map t1 h
    have hloop : measurementLoop t1 fresh2 map (cellOrder t1.m_grid.rows t1.m_grid.cols)
        t1.m_grid = some t1.m_grid := by
      refine measurementLoop_fixed t1 fresh2 map _ _ ?_
      intro z x hm
      rw [cellOrder_mem, hr, hc] at hm
      rw [measureCell_congr t t1 fresh2 map z x _ hr hc hn hth]
      exact measureCell_idem t fresh fresh2 map z x _ _ (hin z x hm.1 hm.2)
    unfold estimate
    rw [hloop, Option.map_some']
  refine ⟨key, ?_⟩
  intro t2 h2 z x
  rw [key, Option.some.injEq] at h2
  subst h2
  exact ⟨rfl, rfl⟩

/-! ### The spawning gate (claim C7) -/

/-- Witness for claim C6: on the scenario the first run completes, and the
second run returns the same tracker. -/
theorem estimate_idempotent_witness :
    ∃ t1, estimate scenarioTracker numberedParticle scenarioMap = some t1 ∧
      estimate t1 numberedParticle scenarioMap = some t1 := by
  obtain ⟨hex, hall⟩ := estimate_idempotent scenarioTracker numberedParticle numberedParticle
    scenarioMap
  obtain ⟨t1, h⟩ := hex rfl rfl scenario_fitsInt
  exact ⟨t1, h, (hall t1 h).1⟩

/-! ### The empty cloud (claim C8) -/

theorem colLoop_zero_of_false (map : BinaryMap) (hfalse : ∀ r c, map.get r c = false)
    (row : Nat) (cs : List Nat) (a : Nat) (h : colLoop map row cs 0 = some a) : a = 0 := by
  induction cs with
  | nil =>
    simp only [colLoop, Option.some.injEq] at h
    exact h.symm
  | cons c rest ih =>
    unfold colLoop at h
    cases hread : map.read row c with
    | none => rw [hread] at h; cases h
    | some b =>
      rw [hread] at h
      have hb : b = false := by rw [read_get map row c b hread, hfalse]
      subst hb
      exact ih h

theorem rowLoop_zero_of_false (map : BinaryMap) (hfalse : ∀ r c, map.get r c = false)
    (colRange : Option (List Nat)) (rs : List Nat) (a : Nat)
    (h : rowLoop map colRange rs 0 = some a) : a = 0 := by
  induction rs with
  | nil =>
    simp only [rowLoop, Option.some.injEq] at h
    exact h.symm
  | cons r rest ih =>
    unfold rowLoop at h
    cases colRange with
    | none => cases h
    | some cs =>
      simp only at h
      cases hcol : colLoop map r cs 0 with
      | none => rw [hcol] at h; cases h
      | some acc1 =>
        rw [hcol] at h
        have h0 := colLoop_zero_of_false map hfalse r cs acc1 hcol
        subst h0
        exact ih h

theorem totalOccupied_zero_of_false (map : BinaryMap) (hfalse : ∀ r c, map.get r c = false)
    (rows cols z x : Nat) (sigmaX sigmaZ : Int) (total : Nat)
    (h : totalOccupied map rows cols z x sigmaX sigmaZ = some total) : total = 0 := by
  unfold totalOccupied at h
  rw [Option.bind_eq_some] at h
  obtain ⟨rs, -, hrow⟩ := h
  exact rowLoop_zero_of_false map hfalse _ rs total hrow

/-- Claim C8, amended. For the empty cloud and every grid,
`getBinaryMapFromPointCloud` returns a map of the grid's shape whose entries
are all false. On every grid that fits `int` (at most `2 ^ 31` rows and
columns, non-negative radii, `z + sigmaZ` and `x + sigmaX` below `2 ^ 31`)
`getMeasurementModelFromPointCloud` then completes, sets `occupiedProb = 0` on
every cell and leaves the particles of every cell unchanged. -/
theorem empty_cloud_leaves_grid_free (t : PolarGridTracking P) (fresh : Nat → Nat → Nat → P) :
    (getBinaryMapFromPointCloud t []).rows = t.m_grid.rows ∧
    (getBinaryMapFromPointCloud t []).cols = t.m_grid.cols ∧
    (∀ r c, (getBinaryMapFromPointCloud t []).get r c = false) ∧
    (t.m_grid.fitsInt →
      ∃ t1, getMeasurementModelFromPointCloud t fresh [] = some t1 ∧
        ∀ z x, z < t.m_grid.rows → x < t.m_grid.cols →
          (t1.m_grid.cell z x).occupiedProb = 0 ∧
          (t1.m_grid.cell z x).particles = (t.m_grid.cell z x).particles) := by
  have hfalse : ∀ r c, (getBinaryMapFromPointCloud t []).get r c = false := fun _ _ => rfl
  refine ⟨rfl, rfl, hfalse, ?_⟩
  intro hfit
  obtain ⟨t1, h⟩ := estimate_isSome_of_fitsInt t fresh (getBinaryMapFromPointCloud t [])
    rfl rfl hfit
  refine ⟨t1, h, ?_⟩
  intro z x hz hx
  obtain ⟨total, here, h1, h2, -, -, hp, -, hno⟩ := estimate_cell t fresh _ t1 h z x hz hx
  have h0 := totalOccupied_zero_of_false _ hfalse _ _ z x _ _ total h1
  have hhere : here = false := by rw [read_get _ z x here h2, hfalse]
  subst h0 hhere
  refine ⟨?_, ?_⟩
  · rw [hp]
    exact occupiedProbOf_zero _ _
  · refine hno ?_
    intro hg
    exact absurd hg.1 (by decide)

/-- Witness for claim C8: on the scenario grid the run on the empty cloud
completes and cell `(5, 5)` has probability 0 and no particle. -/
theorem empty_cloud_leaves_grid_free_witness :
    ∃ t1, getMeasurementModelFromPointCloud scenarioTracker numberedParticle [] = some t1 ∧
      (t1.m_grid.cell 5 5).occupiedProb = 0 ∧ (t1.m_grid.cell 5 5).particles = [] := by
  obtain ⟨t1, h, hall⟩ :=
    (empty_cloud_leaves_grid_free scenarioTracker numberedParticle).2.2.2 scenario_fitsInt
  exact ⟨t1, h, (hall 5 5 (by decide) (by decide)).1, (hall 5 5 (by decide) (by decide)).2⟩

/-! ### The constructor (claim C9) -/

theorem constructCells_ok (mkCell : Nat → Nat → ℚ → ℚ → Except String (Cell P))
    (cellSizeX cellSizeZ : ℚ) (mk : Nat → Nat → Cell P) (order : List (Nat × Nat))
    (hmk : ∀ zx ∈ order, mkCell zx.2 zx.1 cellSizeX cellSizeZ = Except.ok (mk zx.1 zx.2))
    (g : CellGrid P) :
    ∃ g1, constructCells mkCell cellSizeX cellSizeZ order g = Except.ok g1 ∧
      g1.rows = g.rows ∧ g1.cols = g.cols ∧
      ∀ z x, g1.cell z x = if (z, x) ∈ order then mk z x else g.cell z x := by
  induction order generalizing g with
  | nil => exact ⟨g, rfl, rfl, rfl, fun z x => by simp⟩
  | cons zx rest ih =>
    obtain ⟨z0, x0⟩ := zx
    have h0 : mkCell x0 z0 cellSizeX cellSizeZ = Except.ok (mk z0 x0) :=
      hmk (z0, x0) (List.mem_cons_self _ _)
    obtain ⟨g1, hg1, hr, hc, hcell⟩ :=
      ih (fun zx h => hmk zx (List.mem_cons_of_mem _ h)) (g.set z0 x0 (mk z0 x0))
    refine ⟨g1, ?_, hr, hc, ?_⟩
    · unfold constructCells
      simp only [h0]
      exact hg1
    · intro z x
      rw [hcell]
      by_cases hm : (z, x) ∈ rest
      · rw [if_pos hm, if_pos (List.mem_cons_of_mem _ hm)]
      · rw [if_neg hm]
        by_cases he : (z, x) = (z0, x0)
        · obtain ⟨rfl, rfl⟩ := Prod.mk.inj he
          rw [if_pos (List.mem_cons_self _ _), CellGrid.set_cell_same]
        · rw [CellGrid.set_cell_other g z0 x0 z x _ he, if_neg]
          intro hmem
          rcases List.mem_cons.mp hmem with h1 | h1
          · exact he h1
          · exact hm h1

theorem constructCells_error (mkCell : Nat → Nat → ℚ → ℚ → Except String (Cell P))
    (cellSizeX cellSizeZ : ℚ) (order : List (Nat × Nat)) (g : CellGrid P) (e : String)
    (h : constructCells mkCell cellSizeX cellSizeZ order g = Except.error e) :
    ∃ zx ∈ order, mkCell zx.2 zx.1 cellSizeX cellSizeZ = Except.error e := by
  induction order generalizing g with
  | nil => cases h
  | cons zx rest ih =>
    unfold constructCells at h
    cases hc : mkCell zx.2 zx.1 cellSizeX cellSizeZ with
    | error e1 =>
      rw [hc] at h
      simp only [Except.error.injEq] at h
      subst h
      exact ⟨zx, List.mem_cons_self _ _, hc⟩
    | ok c =>
      rw [hc] at h
      obtain ⟨zx1, hm, h1⟩ := ih _ h
      exact ⟨zx1, List.mem_cons_of_mem _ hm, h1⟩

theorem constructCells_of_error (mkCell : Nat → Nat → ℚ → ℚ → Except String (Cell P))
    (cellSizeX cellSizeZ : ℚ) (order : List (Nat × Nat)) (g : CellGrid P)
    (h : ∃ zx ∈ order, ∃ e, mkCell zx.2 zx.1 cellSizeX cellSizeZ = Except.error e) :
    ∃ e, constructCells mkCell cellSizeX cellSizeZ order g = Except.error e := by
  induction order generalizing g with
  | nil =>
    obtain ⟨zx, hm, -⟩ := h
    cases hm
  | cons zx rest ih =>
    unfold constructCells
    cases hc : mkCell zx.2 zx.1 cellSizeX cellSizeZ with
    | error e1 => exact ⟨e1, rfl⟩
    | ok c =>
      obtain ⟨zx1, hm, e, he⟩ := h
      rcases List.mem_cons.mp hm with h1 | h1
      · subst h1
        rw [hc] at he
        cases he
      · exact ih _ ⟨zx1, h1, e, he⟩

theorem roundDouble_zero_mul (q : ℚ) : mulDouble (some 0) (some q) = some 0 := by
  rw [mulDouble_some, zero_mul, roundDouble_zero]

theorem natToDouble_zero : natToDouble 0 = some 0 := by
  unfold natToDouble
  rw [Nat.cast_zero, roundDouble_zero]

theorem maxZ_of_rows_zero (t : PolarGridTracking P) (h : t.m_grid.rows = 0) :
    maxZ t = some 0 ∧ factorZ t = none := by
  have hz : maxZ t = some 0 := by
    unfold maxZ
    rw [h, natToDouble_zero, roundDouble_zero_mul]
  refine ⟨hz, ?_⟩
  unfold factorZ
  rw [hz, h, natToDouble_zero]
  rfl

theorem maxX_of_cols_zero (t : PolarGridTracking P) (h : t.m_grid.cols = 0) :
    subDouble (maxX t) (minX t) = some 0 ∧ factorX t = none := by
  have hx : maxX t = some 0 := by
    unfold maxX
    rw [h, natToDouble_zero, divDouble_some _ _ (by norm_num), zero_div, roundDouble_zero,
      roundDouble_zero_mul]
  have hd : subDouble (maxX t) (minX t) = some 0 := by
    unfold minX
    rw [hx]
    show roundDouble ((0 : ℚ) - -0) = some 0
    rw [neg_zero, sub_zero, roundDouble_zero]
  refine ⟨hd, ?_⟩
  unfold factorX
  rw [hd, h, natToDouble_zero]
  rfl

theorem roundHalfEven_half : roundHalfEven (1 / 2) = 0 := by
  have hf : ⌊(1 / 2 : ℚ)⌋ = 0 := by
    rw [Int.floor_eq_iff]
    norm_num
  unfold roundHalfEven
  rw [hf]
  norm_num

/-- A positive cell size does not keep the divisor away from zero: with
`cols = 1` and `cellSizeX = 2 ^ (-1074)` the product `0.5 * cellSizeX` lies
halfway between 0 and the smallest positive `double` and rounds to 0. -/
theorem tinyCell_divisor_zero :
    0 < tinyCellTracker.m_cellSizeX ∧ maxX tinyCellTracker = some 0 ∧
    subDouble (maxX tinyCellTracker) (minX tinyCellTracker) = some 0 ∧
    factorX tinyCellTracker = none := by
  have h1 : natToDouble 1 = some 1 := roundDouble_of_int _ 1 (by norm_num) (by norm_num)
  have h2 : roundDouble ((1 : ℚ) / 2) = some (1 / 2) := by
    rw [roundDouble_of_dyadic _ 1 (-1) (by norm_num) (by norm_num) (by norm_num)
      (by norm_num [abs_lt])]
  have hu : ulp ((1 / 2 : ℚ) * (1 / 2 ^ 1074)) = 2 ^ (-1074 : Int) := by
    rw [ulp_eq _ (-1075) (by norm_num [abs_of_pos]) (by norm_num [abs_of_pos])]
    norm_num
  have h3 : roundDouble ((1 / 2 : ℚ) * (1 / 2 ^ 1074)) = some 0 := by
    have hq : (1 / 2 : ℚ) * (1 / 2 ^ 1074) / 2 ^ (-1074 : Int) = 1 / 2 := by norm_num
    unfold roundDouble
    rw [hu, hq, roundHalfEven_half]
    norm_num
  have hx : maxX tinyCellTracker = some 0 := by
    show mulDouble (divDouble (natToDouble 1) (some 2)) (some (1 / 2 ^ 1074)) = some 0
    rw [h1, divDouble_some _ _ (by norm_num), h2, mulDouble_some, h3]
  have hd : subDouble (maxX tinyCellTracker) (minX tinyCellTracker) = some 0 := by
    unfold minX
    rw [hx]
    show roundDouble ((0 : ℚ) - -0) = some 0
    rw [neg_zero, sub_zero, roundDouble_zero]
  refine ⟨by norm_num [tinyCellTracker], hx, hd, ?_⟩
  show divDouble (natToDouble 1)
    (subDouble (maxX tinyCellTracker) (minX tinyCellTracker)) = none
  rw [hd, h1]
  rfl

/-- Claim C9, amended. The body of the constructor validates nothing. When
every call `Cell(x, z, cellSizeX, cellSizeZ, cameraParams)` for a cell of the
grid returns, the constructor returns a tracker with the given shape, cell
sizes and parameters that holds these cells; it reports an error only when
one of these calls does, and then it reports that error. With `rows = 0` or
`cols = 0` there is no such call and the constructor returns a tracker for
every pair of cell sizes; on a tracker with `cols = 0` the divisor
`maxX - minX` of `factorX` is zero, and with `rows = 0` the divisor `maxZ` of
`factorZ` is zero. -/
theorem constructor_validates_nothing (defaultCell : Cell P)
    (mkCell : Nat → Nat → ℚ → ℚ → Except String (Cell P)) (rows cols : Nat)
    (cellSizeX cellSizeZ : ℚ) (particlesPerCell : Nat) (threshProbForCreation : ℚ) :
    (∀ mk : Nat → Nat → Cell P,
      (∀ z x, z < rows → x < cols → mkCell x z cellSizeX cellSizeZ = Except.ok (mk z x)) →
      ∃ t, PolarGridTracking.PolarGridTracking defaultCell mkCell rows cols cellSizeX cellSizeZ
          particlesPerCell threshProbForCreation = Except.ok t ∧
        t.m_grid.rows = rows ∧ t.m_grid.cols = cols ∧
        t.m_cellSizeX = cellSizeX ∧ t.m_cellSizeZ = cellSizeZ ∧
        t.m_particlesPerCell = particlesPerCell ∧
        t.m_threshProbForCreation = threshProbForCreation ∧
        ∀ z x, z < rows → x < cols → t.m_grid.cell z x = mk z x) ∧
    (∀ e, PolarGridTracking.PolarGridTracking defaultCell mkCell rows cols cellSizeX cellSizeZ
        particlesPerCell threshProbForCreation = Except.error e →
      ∃ z x, z < rows ∧ x < cols ∧ mkCell x z cellSizeX cellSizeZ = Except.error e) ∧
    ((∃ z x e, z < rows ∧ x < cols ∧ mkCell x z cellSizeX cellSizeZ = Except.error e) →
      ∃ e, PolarGridTracking.PolarGridTracking defaultCell mkCell rows cols cellSizeX cellSizeZ
        particlesPerCell threshProbForCreation = Except.error e) ∧
    (rows = 0 ∨ cols = 0 →
      ∃ t, PolarGridTracking.PolarGridTracking defaultCell mkCell rows cols cellSizeX cellSizeZ
          particlesPerCell threshProbForCreation = Except.ok t ∧
        t.m_grid.rows = rows ∧ t.m_grid.cols = cols ∧
        t.m_cellSizeX = cellSizeX ∧ t.m_cellSizeZ = cellSizeZ ∧
        (cols = 0 → subDouble (maxX t) (minX t) = some 0 ∧ factorX t = none) ∧
        (rows = 0 → maxZ t = some 0 ∧ factorZ t = none)) := by
  have hok : ∀ mk : Nat → Nat → Cell P,
      (∀ z x, z < rows → x < cols → mkCell x z cellSizeX cellSizeZ = Except.ok (mk z x)) →
      ∃ t, PolarGridTracking.PolarGridTracking defaultCell mkCell rows cols cellSizeX cellSizeZ
          particlesPerCell threshProbForCreation = Except.ok t ∧
        t.m_grid.rows = rows ∧ t.m_grid.cols = cols ∧
        t.m_cellSizeX = cellSizeX ∧ t.m_cellSizeZ = cellSizeZ ∧
        t.m_particlesPerCell = particlesPerCell ∧
        t.m_threshProbForCreation = threshProbForCreation ∧
        ∀ z x, z < rows → x < cols → t.m_grid.cell z x = mk z x := by
    intro mk hmk
    obtain ⟨g1, hg1, hr, hc, hcell⟩ := constructCells_ok mkCell cellSizeX cellSizeZ mk
      (cellOrder rows cols)
      (fun zx hm => hmk zx.1 zx.2 ((cellOrder_mem rows cols zx.1 zx.2).mp hm).1
        ((cellOrder_mem rows cols zx.1 zx.2).mp hm).2)
      { rows := rows, cols := cols, cell := fun _ _ => defaultCell }
    refine ⟨PolarGridTracking.mk g1 cellSizeX cellSizeZ particlesPerCell threshProbForCreation,
      ?_, hr, hc, rfl, rfl, rfl, rfl, ?_⟩
    · unfold PolarGridTracking.PolarGridTracking
      simp only [hg1]
    · intro z x hz hx
      show g1.cell z x = mk z x
      rw [hcell, if_pos ((cellOrder_mem rows cols z x).mpr ⟨hz, hx⟩)]
  refine ⟨hok, ?_, ?_, ?_⟩
  · intro e h
    unfold PolarGridTracking.PolarGridTracking at h
    cases hc : constructCells mkCell cellSizeX cellSizeZ (cellOrder rows cols)
        { rows := rows, cols := cols, cell := fun _ _ => defaultCell } with
    | ok g =>
      rw [hc] at h
      cases h
    | error e1 =>
      rw [hc] at h
      simp only [Except.error.injEq] at h
      subst h
      obtain ⟨zx, hm, h1⟩ := constructCells_error mkCell cellSizeX cellSizeZ _ _ _ hc
      exact ⟨zx.1, zx.2, ((cellOrder_mem rows cols zx.1 zx.2).mp hm).1,
        ((cellOrder_mem rows cols zx.1 zx.2).mp hm).2, h1⟩
  · rintro ⟨z, x, e, hz, hx, he⟩
    obtain ⟨e1, h1⟩ := constructCells_of_error mkCell cellSizeX cellSizeZ (cellOrder rows cols)
      { rows := rows, cols := cols, cell := fun _ _ => defaultCell }
      ⟨(z, x), (cellOrder_mem rows cols z x).mpr ⟨hz, hx⟩, e, he⟩
    refine ⟨e1, ?_⟩
    unfold PolarGridTracking.PolarGridTracking
    simp only [h1]
  · intro h0
    obtain ⟨t, ht, hr, hc, hsx, hsz, -, -, -⟩ := hok (fun _ _ => defaultCell) (by
      intro z x hz hx
      rcases h0 with h | h
      · subst h; exact absurd hz (Nat.not_lt_zero _)
      · subst h; exact absurd hx (Nat.not_lt_zero _))
    refine ⟨t, ht, hr, hc, hsx, hsz, ?_, ?_⟩
    · intro h
      exact maxX_of_cols_zero t (hc.trans h)
    · intro h
      exact maxZ_of_rows_zero t (hr.trans h)

/-- Witness for claim C9: with a `Cell` constructor that always returns, the
constructor returns a tracker of 2 rows and 3 columns for the cell sizes
`-1` and `0`. -/
theorem constructor_validates_nothing_witness :
    ∃ t, PolarGridTracking.PolarGridTracking (emptyCell 0 0)
        (fun _ _ _ _ => Except.ok (emptyCell 1 1)) 2 3 (-1) 0 4 (1 / 20) = Except.ok t ∧
      t.m_grid.rows = 2 ∧ t.m_grid.cols = 3 ∧ t.m_cellSizeX = -1 ∧ t.m_cellSizeZ = 0 := by
  obtain ⟨t, ht, hr, hc, hsx, hsz, -⟩ :=
    (constructor_validates_nothing (emptyCell 0 0) (fun _ _ _ _ => Except.ok (emptyCell 1 1))
      2 3 (-1) 0 4 (1 / 20)).1 (fun _ _ => emptyCell 1 1) (fun _ _ _ _ => rfl)
  exact ⟨t, ht, hr, hc, hsx, hsz⟩

/-- Claim C9 fails as stated. With `rows = 0`, `cols = 0` and both cell sizes
`-1` the constructor returns a tracker, even when the constructor of `Cell`
rejects every cell; for that tracker both divisors `maxX - minX` and `maxZ`
of `getBinaryMapFromPointCloud` are zero. -/
theorem constructor_accepts_malformed_configuration :
    ∃ t, PolarGridTracking.PolarGridTracking (emptyCell 0 0) rejectingCell
        0 0 (-1) (-1) 4 (1 / 20) = Except.ok t ∧
      t.m_grid.rows = 0 ∧ t.m_grid.cols = 0 ∧ t.m_cellSizeX = -1 ∧ t.m_cellSizeZ = -1 ∧
      subDouble (maxX t) (minX t) = some 0 ∧ maxZ t = some 0 := by
  refine ⟨_, rfl, rfl, rfl, rfl, rfl, ?_, ?_⟩
  · exact (maxX_of_cols_zero _ rfl).1
  · exact (maxZ_of_rows_zero _ rfl).1

/-! ### The window bounds and the casts (claim C10) -/

theorem colLoop_none_of_row (map : BinaryMap) (row : Nat) (hrow : map.rows ≤ row)
    (cs : List Nat) (hcs : cs ≠ []) (acc : Nat) : colLoop map row cs acc = none := by
  cases cs with
  | nil => exact absurd rfl hcs
  | cons c rest =>
    have hread : map.read row c = none := by
      unfold BinaryMap.read
      rw [if_neg]
      rintro ⟨h, -⟩
      omega
    unfold colLoop
    rw [hread]

theorem rowLoop_none_of_mem (map : BinaryMap) (cs : List Nat) (hcs : cs ≠ []) (rs : List Nat)
    (r : Nat) (hmem : r ∈ rs) (hr : map.rows ≤ r) (acc : Nat) :
    rowLoop map (some cs) rs acc = none := by
  induction rs generalizing acc with
  | nil => cases hmem
  | cons r0 rest ih =>
    unfold rowLoop
    simp only
    cases hcol : colLoop map r0 cs acc with
    | none => rfl
    | some acc1 =>
      simp only
      rcases List.mem_cons.mp hmem with h | h
      · subst h
        rw [colLoop_none_of_row map r hr cs hcs acc] at hcol
        cases hcol
      · exact ih h acc1

theorem clampedWindowCount_le_cells (map : BinaryMap) (rows cols z x : Nat)
    (sigmaX sigmaZ : Int) : clampedWindowCount map rows cols z x sigmaX sigmaZ ≤ rows * cols := by
  unfold clampedWindowCount
  refine le_trans (Finset.card_filter_le _ _) ?_
  rw [Finset.card_product, Finset.card_range, Finset.card_range]

/-- Claim C10, amended. On a grid that fits `int` and has fewer than `2 ^ 32`
cells, and for every binary map of the grid's shape, the estimator completes
and stores on each cell `occupiedProb = N / ((2 * sigmaZ + 1) * (2 * sigmaX + 1))`
with `N` the number of true map entries in the clamped window; the loop bounds
computed through the `uint32_t` and `int` casts are exactly
`max(0, i - sigma)` and `min(dim - 1, i + sigma)`. -/
theorem occupiedProb_eq_window_ratio (t : PolarGridTracking P) (fresh : Nat → Nat → Nat → P)
    (map : BinaryMap) (hmr : map.rows = t.m_grid.rows) (hmc : map.cols = t.m_grid.cols)
    (hfit : t.m_grid.fitsInt) (hsize : t.m_grid.rows * t.m_grid.cols < 4294967296) :
    ∃ t1, estimate t fresh map = some t1 ∧
      ∀ z x, z < t.m_grid.rows → x < t.m_grid.cols →
        (t1.m_grid.cell z x).occupiedProb =
          (clampedWindowCount map t.m_grid.rows t.m_grid.cols z x
            (t.m_grid.cell z x).sigmaX (t.m_grid.cell z x).sigmaZ : ℚ) /
          ((2 * ((t.m_grid.cell z x).sigmaZ : ℚ) + 1) *
            (2 * ((t.m_grid.cell z x).sigmaX : ℚ) + 1)) ∧
        windowLo z (t.m_grid.cell z x).sigmaZ = max 0 ((z : Int) - (t.m_grid.cell z x).sigmaZ) ∧
        windowHi t.m_grid.rows z (t.m_grid.cell z x).sigmaZ =
          min ((t.m_grid.rows : Int) - 1) ((z : Int) + (t.m_grid.cell z x).sigmaZ) ∧
        windowLo x (t.m_grid.cell z x).sigmaX = max 0 ((x : Int) - (t.m_grid.cell z x).sigmaX) ∧
        windowHi t.m_grid.cols x (t.m_grid.cell z x).sigmaX =
          min ((t.m_grid.cols : Int) - 1) ((x : Int) + (t.m_grid.cell z x).sigmaX) := by
  obtain ⟨t1, h⟩ := estimate_isSome_of_fitsInt t fresh map hmr hmc hfit
  refine ⟨t1, h, ?_⟩
  intro z x hz hx
  have hp := estimate_cell_prob t fresh map hmr hmc hfit t1 h z x hz hx
  obtain ⟨hrows, hcols, hcell⟩ := hfit
  obtain ⟨h0x, h0z, h1z, h1x⟩ := hcell z x hz hx
  have hlt : clampedWindowCount map t.m_grid.rows t.m_grid.cols z x
      (t.m_grid.cell z x).sigmaX (t.m_grid.cell z x).sigmaZ < 4294967296 :=
    lt_of_le_of_lt (clampedWindowCount_le_cells map _ _ z x _ _) hsize
  rw [Nat.mod_eq_of_lt hlt] at hp
  refine ⟨hp, windowLo_eq z _ h0z h1z, windowHi_eq _ z _ (by omega) hrows h0z h1z,
    windowLo_eq x _ h0x h1x, windowHi_eq _ x _ (by omega) hcols h0x h1x⟩

/-- Witness for claim C10: on the scenario the window of cell `(5, 5)` holds
one occupied entry and the stored probability is `1 / (3 * 3)`. -/
theorem occupiedProb_eq_window_ratio_witness :
    ∃ t1, estimate scenarioTracker numberedParticle scenarioMap = some t1 ∧
      (t1.m_grid.cell 5 5).occupiedProb = ((1 : Nat) : ℚ) / ((2 * ((1 : Int) : ℚ) + 1) *
        (2 * ((1 : Int) : ℚ) + 1)) := by
  obtain ⟨t1, h, hall⟩ := occupiedProb_eq_window_ratio scenarioTracker numberedParticle
    scenarioMap rfl rfl scenario_fitsInt (by decide)
  refine ⟨t1, h, ?_⟩
  have hc : clampedWindowCount scenarioMap scenarioTracker.m_grid.rows
      scenarioTracker.m_grid.cols 5 5 (scenarioTracker.m_grid.cell 5 5).sigmaX
      (scenarioTracker.m_grid.cell 5 5).sigmaZ = 1 := scenario_count_center
  have h55 := (hall 5 5 (by decide) (by decide)).1
  rw [hc] at h55
  exact h55

theorem wideRadius_totalOccupied :
    totalOccupied (BinaryMap.Zero 2 1) 2 1 1 0 0 2147483647 = none := by
  have e1 : toUInt32 (windowHi 2 1 2147483647) = 2147483648 := by decide
  have e2 : toUInt32 (windowLo 1 2147483647) = 0 := by decide
  have hrows : loopRange (windowLo 1 2147483647) (windowHi 2 1 2147483647) =
      some (List.range' 0 (2147483648 + 1 - 0)) := by
    unfold loopRange
    rw [e1, e2, if_neg (by decide)]
  have hcols : loopRange (windowLo 0 0) (windowHi 1 0 0) = some [0] := by decide
  rw [totalOccupied_of_ranges _ _ _ 1 0 0 2147483647 _ _ hrows hcols]
  refine rowLoop_none_of_mem _ [0] (by decide) _ 2 ?_ (le_refl _) 0
  rw [List.mem_range'_1]
  omega

/-- Claim C10 fails as stated. On a 2 x 1 grid whose cell `(1, 0)` has the
non-negative radius `sigmaZ = 2 ^ 31 - 1`, the cast `(int)(z + sigmaZ)` is
`-2 ^ 31`: the row loop runs up to `2 ^ 31` instead of the clamped limit 1,
reads the map outside its shape, and the estimator yields no result. -/
theorem window_casts_overflow_on_wide_radius :
    0 ≤ (wideRadiusTracker.m_grid.cell 1 0).sigmaX ∧
    0 ≤ (wideRadiusTracker.m_grid.cell 1 0).sigmaZ ∧
    toUInt32 (windowHi 2 1 2147483647) = 2147483648 ∧
    min (((2 : Nat) : Int) - 1) (((1 : Nat) : Int) + 2147483647) = 1 ∧
    estimate wideRadiusTracker numberedParticle (BinaryMap.Zero 2 1) = none := by
  refine ⟨by decide, by decide, by decide, by decide, ?_⟩
  cases h : estimate wideRadiusTracker numberedParticle (BinaryMap.Zero 2 1) with
  | none => rfl
  | some t1 =>
    obtain ⟨total, here, h1, -⟩ := estimate_cell wideRadiusTracker numberedParticle _ t1 h 1 0
      (by decide) (by decide)
    have h1a : totalOccupied (BinaryMap.Zero 2 1) 2 1 1 0 0 2147483647 = some total := h1
    rw [wideRadius_totalOccupied] at h1a
    cases h1a

/-! ### The empty cloud outside the `int` range (claim C8) -/

/-- Claim C8 fails as stated. On the 2 x 1 grid whose cells have the
non-negative radii `sigmaX = 0` and `sigmaZ = 2 ^ 31 - 1`, the map built from
the empty cloud is the all-false 2 x 1 map, the row loop for cell `(1, 0)`
reads it outside its shape, and `getMeasurementModelFromPointCloud` yields no
result: no probability is set to 0. -/
theorem empty_cloud_run_fails_on_wide_radius :
    0 ≤ (wideRadiusTracker.m_grid.cell 1 0).sigmaX ∧
    0 ≤ (wideRadiusTracker.m_grid.cell 1 0).sigmaZ ∧
    getBinaryMapFromPointCloud wideRadiusTracker [] = BinaryMap.Zero 2 1 ∧
    totalOccupied (BinaryMap.Zero 2 1) 2 1 1 0 0 2147483647 = none ∧
    getMeasurementModelFromPointCloud wideRadiusTracker numberedParticle [] = none := by
  refine ⟨by decide, by decide, rfl, wideRadius_totalOccupied, ?_⟩
  cases h : getMeasurementModelFromPointCloud wideRadiusTracker numberedParticle [] with
  | none => rfl
  | some t1 =>
    have h0 : estimate wideRadiusTracker numberedParticle (BinaryMap.Zero 2 1) = some t1 := h
    obtain ⟨total, here, h1, -⟩ := estimate_cell wideRadiusTracker numberedParticle _ t1 h0 1 0
      (by decide) (by decide)
    have h1a : totalOccupied (BinaryMap.Zero 2 1) 2 1 1 0 0 2147483647 = some total := h1
    rw [wideRadius_totalOccupied] at h1a
    cases h1a

/-! ### A cell whose counter and own entry are read -/

theorem measureCell_isSome_of_total (t : PolarGridTracking P) (fresh : Nat → Nat → Nat → P)
    (map : BinaryMap) (z x : Nat) (cell : Cell P) (total : Nat) (here : Bool)
    (h1 : totalOccupied map t.m_grid.rows t.m_grid.cols z x cell.sigmaX cell.sigmaZ = some total)
    (h2 : map.read z x = some here) :
    ∃ c, measureCell t fresh map z x cell = some c := by
  by_cases hg : spawnGate here cell (occupiedProbOf total cell.sigmaX cell.sigmaZ)
      t.m_threshProbForCreation
  · exact ⟨_, (measureCell_eq t fresh map z x cell total here h1 h2).1 hg⟩
  · exact ⟨_, (measureCell_eq t fresh map z x cell total here h1 h2).2 hg⟩

/-! ### Edge cells (claim C11) -/

theorem clampedWindowCount_le_inGrid (map : BinaryMap) (rows cols z x : Nat)
    (sigmaX sigmaZ : Int) :
    clampedWindowCount map rows cols z x sigmaX sigmaZ ≤
      inGridWindowCells rows cols z x sigmaX sigmaZ := by
  unfold clampedWindowCount inGridWindowCells
  refine Finset.card_le_card ?_
  intro p hp
  simp only [Finset.mem_filter] at hp ⊢
  obtain ⟨hmem, h1, h2, h3, h4, -⟩ := hp
  refine ⟨hmem, ?_, ?_, ?_, ?_⟩ <;> omega

theorem inGridWindowCells_eq (rows cols z x : Nat) (sx sz : Nat) (hz : z < rows)
    (hx : x < cols) :
    inGridWindowCells rows cols z x (sx : Int) (sz : Int) =
      (min (rows - 1) (z + sz) + 1 - (z - sz)) * (min (cols - 1) (x + sx) + 1 - (x - sx)) := by
  unfold inGridWindowCells
  rw [← Nat.card_Icc, ← Nat.card_Icc, ← Finset.card_product]
  congr 1
  ext ⟨r, c⟩
  simp only [Finset.mem_filter, Finset.mem_product, Finset.mem_range, Finset.mem_Icc]
  constructor
  · rintro ⟨⟨h1, h2⟩, h3, h4, h5, h6⟩
    have a1 : z - sz ≤ r := by omega
    have a2 : r ≤ min (rows - 1) (z + sz) := by omega
    have a3 : x - sx ≤ c := by omega
    have a4 : c ≤ min (cols - 1) (x + sx) := by omega
    exact ⟨⟨a1, a2⟩, a3, a4⟩
  · rintro ⟨⟨h1, h2⟩, h3, h4⟩
    have a1 : r < rows := by omega
    have a2 : c < cols := by omega
    have a3 : (z : Int) - sz ≤ (r : Int) := by omega
    have a4 : (r : Int) ≤ (z : Int) + sz := by omega
    have a5 : (x : Int) - sx ≤ (c : Int) := by omega
    have a6 : (c : Int) ≤ (x : Int) + sx := by omega
    exact ⟨⟨a1, a2⟩, a3, a4, a5, a6⟩

theorem inGridWindowCells_lt (rows cols z x : Nat) (sigmaX sigmaZ : Int) (hz : z < rows)
    (hx : x < cols) (h0x : 0 ≤ sigmaX) (h0z : 0 ≤ sigmaZ)
    (hedge : ¬ nominalWindowInGrid rows cols z x sigmaX sigmaZ) :
    (inGridWindowCells rows cols z x sigmaX sigmaZ : Int) <
      (2 * sigmaZ + 1) * (2 * sigmaX + 1) := by
  obtain ⟨sx, rfl⟩ := Int.eq_ofNat_of_zero_le h0x
  obtain ⟨sz, rfl⟩ := Int.eq_ofNat_of_zero_le h0z
  rw [inGridWindowCells_eq rows cols z x sx sz hz hx]
  unfold nominalWindowInGrid at hedge
  have hA : min (rows - 1) (z + sz) + 1 - (z - sz) ≤ 2 * sz + 1 := by omega
  have hB : min (cols - 1) (x + sx) + 1 - (x - sx) ≤ 2 * sx + 1 := by omega
  have hA1 : 1 ≤ min (rows - 1) (z + sz) + 1 - (z - sz) := by omega
  have hB1 : 1 ≤ min (cols - 1) (x + sx) + 1 - (x - sx) := by omega
  have hstrict : min (rows - 1) (z + sz) + 1 - (z - sz) < 2 * sz + 1 ∨
      min (cols - 1) (x + sx) + 1 - (x - sx) < 2 * sx + 1 := by omega
  have hnat : (min (rows - 1) (z + sz) + 1 - (z - sz)) *
      (min (cols - 1) (x + sx) + 1 - (x - sx)) < (2 * sz + 1) * (2 * sx + 1) := by
    rcases hstrict with h | h
    · exact Nat.mul_lt_mul_of_lt_of_le h hB (by omega)
    · exact Nat.mul_lt_mul_of_le_of_lt hA h (by omega)
  exact_mod_cast hnat

theorem occupiedProbOf_le_of_le (n m : Nat) (sigmaX sigmaZ : Int) (h0x : 0 ≤ sigmaX)
    (h0z : 0 ≤ sigmaZ) (h : n ≤ m) :
    occupiedProbOf n sigmaX sigmaZ ≤ occupiedProbOf m sigmaX sigmaZ := by
  unfold occupiedProbOf
  have hx : (0 : ℚ) ≤ (sigmaX : ℚ) := by exact_mod_cast h0x
  have hz : (0 : ℚ) ≤ (sigmaZ : ℚ) := by exact_mod_cast h0z
  have hnm : (n : ℚ) ≤ (m : ℚ) := by exact_mod_cast h
  exact div_le_div_of_nonneg_right hnm (by positivity)

theorem occupiedProbOf_lt_one (total : Nat) (sigmaX sigmaZ : Int) (h0x : 0 ≤ sigmaX)
    (h0z : 0 ≤ sigmaZ) (h : (total : Int) < (2 * sigmaZ + 1) * (2 * sigmaX + 1)) :
    occupiedProbOf total sigmaX sigmaZ < 1 := by
  unfold occupiedProbOf
  have hx : (0 : ℚ) ≤ (sigmaX : ℚ) := by exact_mod_cast h0x
  have hz : (0 : ℚ) ≤ (sigmaZ : ℚ) := by exact_mod_cast h0z
  have hq : ((total : Int) : ℚ) < (((2 * sigmaZ + 1) * (2 * sigmaX + 1) : Int) : ℚ) := by
    exact_mod_cast h
  push_cast at hq
  rw [div_lt_one (by positivity)]
  exact hq

/-- Claim C11, amended. On a grid that fits `int` and for every binary map of
the grid's shape, the estimator completes; every cell's `occupiedProb` is at
most the number of in-grid cells of its nominal window divided by
`(2 * sigmaZ + 1) * (2 * sigmaX + 1)`; a cell whose nominal window is not
contained in the grid has `occupiedProb < 1`, so `occupiedProb = 1` is only
reached by cells whose whole nominal window lies in the grid. -/
theorem edge_cells_biased_low (t : PolarGridTracking P) (fresh : Nat → Nat → Nat → P)
    (map : BinaryMap) (hmr : map.rows = t.m_grid.rows) (hmc : map.cols = t.m_grid.cols)
    (hfit : t.m_grid.fitsInt) :
    ∃ t1, estimate t fresh map = some t1 ∧
      ∀ z x, z < t.m_grid.rows → x < t.m_grid.cols →
        (t1.m_grid.cell z x).occupiedProb ≤
          (inGridWindowCells t.m_grid.rows t.m_grid.cols z x (t.m_grid.cell z x).sigmaX
            (t.m_grid.cell z x).sigmaZ : ℚ) /
          ((2 * ((t.m_grid.cell z x).sigmaZ : ℚ) + 1) *
            (2 * ((t.m_grid.cell z x).sigmaX : ℚ) + 1)) ∧
        (¬ nominalWindowInGrid t.m_grid.rows t.m_grid.cols z x (t.m_grid.cell z x).sigmaX
            (t.m_grid.cell z x).sigmaZ → (t1.m_grid.cell z x).occupiedProb < 1) ∧
        ((t1.m_grid.cell z x).occupiedProb = 1 →
          nominalWindowInGrid t.m_grid.rows t.m_grid.cols z x (t.m_grid.cell z x).sigmaX
            (t.m_grid.cell z x).sigmaZ) := by
  obtain ⟨t1, h⟩ := estimate_isSome_of_fitsInt t fresh map hmr hmc hfit
  refine ⟨t1, h, ?_⟩
  intro z x hz hx
  have hp := estimate_cell_prob t fresh map hmr hmc hfit t1 h z x hz hx
  obtain ⟨h0x, h0z, -, -⟩ := hfit.2.2 z x hz hx
  have hle : clampedWindowCount map t.m_grid.rows t.m_grid.cols z x
      (t.m_grid.cell z x).sigmaX (t.m_grid.cell z x).sigmaZ % 4294967296 ≤
      inGridWindowCells t.m_grid.rows t.m_grid.cols z x (t.m_grid.cell z x).sigmaX
        (t.m_grid.cell z x).sigmaZ :=
    le_trans (Nat.mod_le _ _) (clampedWindowCount_le_inGrid map _ _ z x _ _)
  have hedge : ¬ nominalWindowInGrid t.m_grid.rows t.m_grid.cols z x
      (t.m_grid.cell z x).sigmaX (t.m_grid.cell z x).sigmaZ →
      (t1.m_grid.cell z x).occupiedProb < 1 := by
    intro hne
    rw [hp]
    refine occupiedProbOf_lt_one _ _ _ h0x h0z ?_
    exact lt_of_le_of_lt (Int.ofNat_le.mpr hle)
      (inGridWindowCells_lt _ _ z x _ _ hz hx h0x h0z hne)
  refine ⟨?_, hedge, ?_⟩
  · rw [hp]
    exact occupiedProbOf_le_of_le _ _ _ _ h0x h0z hle
  · intro hone
    by_contra hne
    have := hedge hne
    rw [hone] at this
    exact lt_irrefl _ this

/-- Witness for claim C11: on the all-occupied 10 x 10 map the corner cell
`(0, 0)` of the scenario grid, whose window leaves the grid, stays below 1. -/
theorem edge_cells_biased_low_witness :
    ∃ t1, estimate scenarioTracker numberedParticle (fullMap 10 10) = some t1 ∧
      (t1.m_grid.cell 0 0).occupiedProb < 1 := by
  obtain ⟨t1, h, hall⟩ := edge_cells_biased_low scenarioTracker numberedParticle
    (fullMap 10 10) rfl rfl scenario_fitsInt
  refine ⟨t1, h, (hall 0 0 (by decide) (by decide)).2.1 ?_⟩
  unfold nominalWindowInGrid
  simp only [scenarioTracker, unitTracker, emptyCell]
  omega

theorem tallEdge_rowRange (z : Nat) (hz : z < 2147483649) :
    ∃ lo, loopRange (windowLo z 1) (windowHi 2147483649 z 1) =
      some (List.range' lo (2147483649 - lo)) ∧ (z = 0 → lo = 0) := by
  have e1 : toUInt32 (windowHi 2147483649 z 1) = 2147483648 := by
    unfold windowHi toInt32 toUInt32
    omega
  refine ⟨toUInt32 (windowLo z 1), ?_, ?_⟩
  · unfold loopRange
    rw [e1, if_neg (by decide)]
  · rintro rfl
    decide

theorem tallEdge_totalOccupied (z : Nat) (hz : z < 2147483649) :
    ∃ total, totalOccupied (fullMap 2147483649 1) 2147483649 1 z 0 0 1 = some total ∧
      (z = 0 → total = 2147483649) := by
  obtain ⟨lo, hlo, hlo0⟩ := tallEdge_rowRange z hz
  have hcol : loopRange (windowLo 0 0) (windowHi 1 0 0) = some (List.range' 0 1) := by decide
  have hrs : ∀ r ∈ List.range' lo (2147483649 - lo), r < (fullMap 2147483649 1).rows := by
    intro r hr
    rw [List.mem_range'_1] at hr
    show r < 2147483649
    omega
  have hcs : ∀ c ∈ List.range' 0 1, c < (fullMap 2147483649 1).cols := by
    intro c hc
    rw [List.mem_range'_1] at hc
    show c < 1
    omega
  have key := rowLoop_eq (fullMap 2147483649 1) _ hcs _ hrs 0 (by decide)
  rw [countEntries_fullMap, List.length_range', List.length_range'] at key
  refine ⟨(0 + (2147483649 - lo) * 1) % 4294967296, ?_, ?_⟩
  · rw [totalOccupied_of_ranges _ _ _ z 0 0 1 _ _ hlo hcol]
    exact key
  · intro h0
    rw [hlo0 h0]

/-- Claim C11 fails as stated. On a grid of `2 ^ 31 + 1` rows and one column
with `sigmaZ = 1`, the nominal window of cell `(0, 0)` starts at row `-1` and
has two in-grid cells, but `(int)(rows - 1)` is `-2 ^ 31` and the row loop runs
over every row: on the all-occupied map the estimator completes and stores
`occupiedProb = (2 ^ 31 + 1) / 3`, which is not below 1. -/
theorem edge_cell_reaches_one_on_tall_grid :
    ¬ nominalWindowInGrid 2147483649 1 0 0 0 1 ∧
    inGridWindowCells 2147483649 1 0 0 0 1 = 2 ∧
    ∃ t1, estimate tallEdgeTracker numberedParticle (fullMap 2147483649 1) = some t1 ∧
      (t1.m_grid.cell 0 0).occupiedProb = 2147483649 / 3 ∧
      ¬ (t1.m_grid.cell 0 0).occupiedProb < 1 := by
  refine ⟨?_, ?_, ?_⟩
  · unfold nominalWindowInGrid
    omega
  · have h := inGridWindowCells_eq 2147483649 1 0 0 0 1 (by omega) (by omega)
    rw [show ((0 : Nat) : Int) = 0 from rfl, show ((1 : Nat) : Int) = 1 from rfl] at h
    rw [h]
    decide
  · have hcells : ∀ z x, z < tallEdgeTracker.m_grid.rows → x < tallEdgeTracker.m_grid.cols →
        ∃ c, measureCell tallEdgeTracker numberedParticle (fullMap 2147483649 1) z x
          (tallEdgeTracker.m_grid.cell z x) = some c := by
      intro z x hz hx
      have hx0 : x = 0 := by
        have : x < 1 := hx
        omega
      subst hx0
      obtain ⟨total, htot0, -⟩ := tallEdge_totalOccupied z hz
      have htot : totalOccupied (fullMap 2147483649 1) tallEdgeTracker.m_grid.rows
          tallEdgeTracker.m_grid.cols z 0 (tallEdgeTracker.m_grid.cell z 0).sigmaX
          (tallEdgeTracker.m_grid.cell z 0).sigmaZ = some total := htot0
      have hread : (fullMap 2147483649 1).read z 0 = some true := by
        unfold BinaryMap.read
        rw [if_pos ⟨hz, by decide⟩]
        rfl
      exact measureCell_isSome_of_total tallEdgeTracker numberedParticle _ z 0
        (tallEdgeTracker.m_grid.cell z 0) total true htot hread
    obtain ⟨t1, h⟩ := estimate_isSome_of_cells tallEdgeTracker numberedParticle _ hcells
    obtain ⟨total, here, h1, -, -, -, hp, -⟩ :=
      estimate_cell tallEdgeTracker numberedParticle _ t1 h 0 0
        (show (0 : Nat) < 2147483649 by omega) (show (0 : Nat) < 1 by omega)
    obtain ⟨total0, htot0, hval⟩ := tallEdge_totalOccupied 0 (by omega)
    have ht : total = 2147483649 := by
      have h1a : totalOccupied (fullMap 2147483649 1) 2147483649 1 0 0 0 1 = some total := h1
      have e : some total = some total0 := h1a.symm.trans htot0
      rw [Option.some.injEq] at e
      rw [e, hval rfl]
    have hprob : (t1.m_grid.cell 0 0).occupiedProb = 2147483649 / 3 := by
      rw [hp, ht]
      simp only [tallEdgeTracker, emptyCell, occupiedProbOf]
      norm_num
    refine ⟨t1, h, hprob, ?_⟩
    rw [hprob]
    norm_num

/-! ### The reads of the window loops (claim C12) -/

theorem colLoop_isSome_iff (map : BinaryMap) (row : Nat) (cs : List Nat) (acc : Nat) :
    (colLoop map row cs acc).isSome ↔ ∀ c ∈ cs, row < map.rows ∧ c < map.cols := by
  induction cs generalizing acc with
  | nil => simp [colLoop]
  | cons c rest ih =>
    unfold colLoop
    by_cases hb : row < map.rows ∧ c < map.cols
    · have hread : map.read row c = some (map.get row c) := by
        unfold BinaryMap.read
        rw [if_pos hb]
      rw [hread]
      simp only [ih, List.mem_cons, forall_eq_or_imp, hb, true_and]
    · have hread : map.read row c = none := by
        unfold BinaryMap.read
        rw [if_neg hb]
      rw [hread]
      simp only [Option.isSome_none, Bool.false_eq_true, List.mem_cons, forall_eq_or_imp,
        false_iff, not_and]
      intro h
      exact absurd h hb

theorem rowLoop_isSome_iff (map : BinaryMap) (cs : List Nat) (rs : List Nat) (acc : Nat) :
    (rowLoop map (some cs) rs acc).isSome ↔
      ∀ r ∈ rs, ∀ c ∈ cs, r < map.rows ∧ c < map.cols := by
  induction rs generalizing acc with
  | nil => simp [rowLoop]
  | cons r rest ih =>
    unfold rowLoop
    simp only [List.mem_cons, forall_eq_or_imp]
    cases hcol : colLoop map r cs acc with
    | none =>
      have hn : ¬ ∀ c ∈ cs, r < map.rows ∧ c < map.cols := by
        rw [← colLoop_isSome_iff map r cs acc, hcol]
        simp
      simp only [Option.isSome_none, Bool.false_eq_true, false_iff, not_and]
      intro h
      exact absurd h hn
    | some acc1 =>
      have hy : ∀ c ∈ cs, r < map.rows ∧ c < map.cols := by
        rw [← colLoop_isSome_iff map r cs acc, hcol]
        rfl
      simp only [ih]
      exact ⟨fun h => ⟨hy, h⟩, fun h => h.2⟩

theorem rowLoop_none_range (map : BinaryMap) (r : Nat) (rest : List Nat) (acc : Nat) :
    rowLoop map none (r :: rest) acc = none := by
  unfold rowLoop
  rfl

theorem mem_windowProduct (rs cs : List Nat) (p : Nat × Nat) :
    p ∈ rs.flatMap (fun r => cs.map (fun c => (r, c))) ↔ p.1 ∈ rs ∧ p.2 ∈ cs := by
  obtain ⟨a, b⟩ := p
  simp only [List.mem_flatMap, List.mem_map, Prod.mk.injEq]
  constructor
  · rintro ⟨r, hr, c, hc, rfl, rfl⟩
    exact ⟨hr, hc⟩
  · rintro ⟨hr, hc⟩
    exact ⟨a, hr, b, hc, rfl, rfl⟩

theorem windowReads_of_ranges (rows cols z x : Nat) (sigmaX sigmaZ : Int) (rs cs : List Nat)
    (hr : loopRange (windowLo z sigmaZ) (windowHi rows z sigmaZ) = some rs)
    (hc : loopRange (windowLo x sigmaX) (windowHi cols x sigmaX) = some cs) :
    windowReads rows cols z x sigmaX sigmaZ =
      some (rs.flatMap (fun r => cs.map (fun c => (r, c)))) := by
  unfold windowReads
  rw [hr, hc, Option.some_bind]
  cases rs with
  | nil => rfl
  | cons r rest => rfl

/-- The list `windowReads` is the list of reads of `totalOccupied`: the
counter has a value exactly when the reads exist and all lie in the map. -/
theorem totalOccupied_isSome_iff (map : BinaryMap) (rows cols z x : Nat)
    (sigmaX sigmaZ : Int) :
    (totalOccupied map rows cols z x sigmaX sigmaZ).isSome ↔
      ∃ reads, windowReads rows cols z x sigmaX sigmaZ = some reads ∧
        ∀ p ∈ reads, p.1 < map.rows ∧ p.2 < map.cols := by
  unfold totalOccupied windowReads
  generalize loopRange (windowLo z sigmaZ) (windowHi rows z sigmaZ) = R
  generalize loopRange (windowLo x sigmaX) (windowHi cols x sigmaX) = C
  cases R with
  | none => simp
  | some rs =>
    rw [Option.some_bind, Option.some_bind]
    cases rs with
    | nil => simp [rowLoop]
    | cons r rest =>
      cases C with
      | none => simp [rowLoop_none_range]
      | some cs =>
        rw [rowLoop_isSome_iff]
        simp only [List.isEmpty_cons, Bool.false_eq_true, if_false, Option.map_some',
          Option.some.injEq, exists_eq_left']
        constructor
        · intro h p hp
          rw [mem_windowProduct] at hp
          exact h p.1 hp.1 p.2 hp.2
        · intro h r1 hr1 c1 hc1
          exact h (r1, c1) ((mem_windowProduct _ _ _).mpr ⟨hr1, hc1⟩)

/-- Claim C12, amended. For a grid with at most `2 ^ 31` rows and columns, a
cell `(z, x)` of it and non-negative radii with `z + sigmaZ` and `x + sigmaX`
below `2 ^ 31`, the window loops terminate, every read `map(row, col)` has
`row < rows` and `col < cols` (the cell itself is among the reads), and on
every map of the grid's shape the checked reads never fail. -/
theorem window_reads_in_bounds (rows cols z x : Nat) (sigmaX sigmaZ : Int)
    (hz : z < rows) (hx : x < cols) (hrows : rows ≤ 2147483648) (hcols : cols ≤ 2147483648)
    (h0x : 0 ≤ sigmaX) (h0z : 0 ≤ sigmaZ)
    (h1z : (z : Int) + sigmaZ < 2147483648) (h1x : (x : Int) + sigmaX < 2147483648) :
    ∃ reads, windowReads rows cols z x sigmaX sigmaZ = some reads ∧
      (∀ p ∈ reads, p.1 < rows ∧ p.2 < cols) ∧
      (z, x) ∈ reads ∧
      ∀ map : BinaryMap, map.rows = rows → map.cols = cols →
        (totalOccupied map rows cols z x sigmaX sigmaZ).isSome := by
  have hr := loopRange_window rows z sigmaZ hz hrows h0z h1z
  have hc := loopRange_window cols x sigmaX hx hcols h0x h1x
  have hreads := windowReads_of_ranges rows cols z x sigmaX sigmaZ _ _ hr hc
  have hin : ∀ p ∈ (List.range' (z - sigmaZ.toNat)
      (min (rows - 1) (z + sigmaZ.toNat) + 1 - (z - sigmaZ.toNat))).flatMap (fun r =>
        (List.range' (x - sigmaX.toNat)
          (min (cols - 1) (x + sigmaX.toNat) + 1 - (x - sigmaX.toNat))).map (fun c => (r, c))),
      p.1 < rows ∧ p.2 < cols := by
    intro p hp
    rw [mem_windowProduct, List.mem_range'_1, List.mem_range'_1] at hp
    omega
  refine ⟨_, hreads, hin, ?_, ?_⟩
  · rw [mem_windowProduct, List.mem_range'_1, List.mem_range'_1]
    omega
  · intro map hmr hmc
    rw [totalOccupied_isSome_iff]
    refine ⟨_, hreads, ?_⟩
    intro p hp
    rw [hmr, hmc]
    exact hin p hp

/-- Witness for claim C12: the reads for cell `(5, 5)` of a 10 x 10 grid with
radius 1 stay in the grid. -/
theorem window_reads_in_bounds_witness :
    ∃ reads, windowReads 10 10 5 5 1 1 = some reads ∧
      (∀ p ∈ reads, p.1 < 10 ∧ p.2 < 10) ∧ (5, 5) ∈ reads := by
  obtain ⟨reads, h, hin, hmem, -⟩ := window_reads_in_bounds 10 10 5 5 1 1 (by decide)
    (by decide) (by decide) (by decide) (by decide) (by decide) (by decide) (by decide)
  exact ⟨reads, h, hin, hmem⟩

/-- Claim C12 fails as stated. On the 2 x 1 grid whose cell `(1, 0)` has the
non-negative radii `sigmaX = 0`, `sigmaZ = 2 ^ 31 - 1`, the window loops read
`map(2, 0)`, outside the two rows, and the checked read fails. -/
theorem window_reads_leave_grid_on_wide_radius :
    wideRadiusTracker.m_grid.rows = 2 ∧ wideRadiusTracker.m_grid.cols = 1 ∧
    (wideRadiusTracker.m_grid.cell 1 0).sigmaX = 0 ∧
    (wideRadiusTracker.m_grid.cell 1 0).sigmaZ = 2147483647 ∧
    (∃ reads, windowReads 2 1 1 0 0 2147483647 = some reads ∧ (2, 0) ∈ reads) ∧
    totalOccupied (BinaryMap.Zero 2 1) 2 1 1 0 0 2147483647 = none := by
  refine ⟨rfl, rfl, rfl, rfl, ?_, wideRadius_totalOccupied⟩
  have e1 : toUInt32 (windowHi 2 1 2147483647) = 2147483648 := by decide
  have e2 : toUInt32 (windowLo 1 2147483647) = 0 := by decide
  have hrows : loopRange (windowLo 1 2147483647) (windowHi 2 1 2147483647) =
      some (List.range' 0 (2147483648 + 1 - 0)) := by
    unfold loopRange
    rw [e1, e2, if_neg (by decide)]
  have hcols : loopRange (windowLo 0 0) (windowHi 1 0 0) = some [0] := by decide
  refine ⟨_, windowReads_of_ranges 2 1 1 0 0 2147483647 _ _ hrows hcols, ?_⟩
  rw [mem_windowProduct, List.mem_range'_1]
  refine ⟨by omega, ?_⟩
  exact List.mem_singleton_self _

/-! ### The visiting order (claim C13) -/

theorem CellGrid.eq_of_cells (g1 g2 : CellGrid P) (hr : g1.rows = g2.rows)
    (hc : g1.cols = g2.cols) (hcell : ∀ z x, g1.cell z x = g2.cell z x) : g1 = g2 := by
  cases g1
  cases g2
  simp only at hr hc hcell
  subst hr hc
  have hfun : ∀ f g : Nat → Nat → Cell P, (∀ z x, f z x = g z x) → f = g :=
    fun f g h => funext (fun z => funext (fun x => h z x))
  rw [hfun _ _ hcell]

theorem measurementLoop_perm (t : PolarGridTracking P) (fresh : Nat → Nat → Nat → P)
    (map : BinaryMap) (o1 o2 : List (Nat × Nat)) (hnd : o2.Nodup) (hperm : o1.Perm o2)
    (g : CellGrid P) :
    measurementLoop t fresh map o1 g = measurementLoop t fresh map o2 g := by
  have hnd1 : o1.Nodup := hperm.nodup_iff.mpr hnd
  have hmem : ∀ z x, (z, x) ∈ o1 ↔ (z, x) ∈ o2 := fun z x => hperm.mem_iff
  cases h1 : measurementLoop t fresh map o1 g with
  | none =>
    cases h2 : measurementLoop t fresh map o2 g with
    | none => rfl
    | some g2 =>
      obtain ⟨-, -, hin, -⟩ := measurementLoop_some t fresh map o2 hnd g g2 h2
      obtain ⟨g1, hg1⟩ := measurementLoop_isSome t fresh map o1 hnd1 g
        (fun z x hm => ⟨_, hin z x ((hmem z x).mp hm)⟩)
      rw [h1] at hg1
      cases hg1
  | some g1 =>
    obtain ⟨hr1, hc1, hin1, hout1⟩ := measurementLoop_some t fresh map o1 hnd1 g g1 h1
    obtain ⟨g2, h2⟩ := measurementLoop_isSome t fresh map o2 hnd g
      (fun z x hm => ⟨_, hin1 z x ((hmem z x).mpr hm)⟩)
    obtain ⟨hr2, hc2, hin2, hout2⟩ := measurementLoop_some t fresh map o2 hnd g g2 h2
    rw [h2]
    congr 1
    refine CellGrid.eq_of_cells g1 g2 (hr1.trans hr2.symm) (hc1.trans hc2.symm) ?_
    intro z x
    by_cases hm : (z, x) ∈ o1
    · have e1 := hin1 z x hm
      have e2 := hin2 z x ((hmem z x).mp hm)
      rw [e1, Option.some.injEq] at e2
      exact e2
    · rw [hout1 z x hm, hout2 z x (fun h => hm ((hmem z x).mpr h))]

theorem measureCell_fresh_indep (t : PolarGridTracking P) (fresh fresh2 : Nat → Nat → Nat → P)
    (map : BinaryMap) (z x : Nat) (cell c1 : Cell P)
    (h : measureCell t fresh map z x cell = some c1) :
    ∃ c2, measureCell t fresh2 map z x cell = some c2 ∧
      c2.occupiedProb = c1.occupiedProb ∧ c2.particles.length = c1.particles.length := by
  obtain ⟨total, here, h1, h2⟩ := measureCell_some t fresh map z x cell c1 h
  obtain ⟨-, -, hp, hyes, hno⟩ := measureCell_result t fresh map z x cell c1 total here h1 h2 h
  obtain ⟨c2, hc2⟩ := measureCell_isSome_of_total t fresh2 map z x cell total here h1 h2
  obtain ⟨-, -, hp2, hyes2, hno2⟩ :=
    measureCell_result t fresh2 map z x cell c2 total here h1 h2 hc2
  refine ⟨c2, hc2, hp2.trans hp.symm, ?_⟩
  by_cases hg : spawnGate here cell (occupiedProbOf total cell.sigmaX cell.sigmaZ)
      t.m_threshProbForCreation
  · rw [hyes hg, hyes2 hg]
    simp only [List.length_append, List.length_map]
  · rw [hno hg, hno2 hg]

theorem measurementLoop_perm_fresh (t : PolarGridTracking P)
    (fresh fresh2 : Nat → Nat → Nat → P) (map : BinaryMap) (o1 o2 : List (Nat × Nat))
    (hnd : o2.Nodup) (hperm : o1.Perm o2) (g g1 : CellGrid P)
    (h1 : measurementLoop t fresh map o1 g = some g1) :
    ∃ g2, measurementLoop t fresh2 map o2 g = some g2 ∧
      ∀ z x, (g2.cell z x).occupiedProb = (g1.cell z x).occupiedProb ∧
        (g2.cell z x).particles.length = (g1.cell z x).particles.length := by
  have hnd1 : o1.Nodup := hperm.nodup_iff.mpr hnd
  have hmem : ∀ z x, (z, x) ∈ o1 ↔ (z, x) ∈ o2 := fun z x => hperm.mem_iff
  obtain ⟨-, -, hin1, hout1⟩ := measurementLoop_some t fresh map o1 hnd1 g g1 h1
  obtain ⟨g2, h2⟩ := measurementLoop_isSome t fresh2 map o2 hnd g (fun z x hm => by
    obtain ⟨c2, hc2, -⟩ := measureCell_fresh_indep t fresh fresh2 map z x _ _
      (hin1 z x ((hmem z x).mpr hm))
    exact ⟨c2, hc2⟩)
  obtain ⟨-, -, hin2, hout2⟩ := measurementLoop_some t fresh2 map o2 hnd g g2 h2
  refine ⟨g2, h2, ?_⟩
  intro z x
  by_cases hm : (z, x) ∈ o1
  · obtain ⟨c2, hc2, hp, hl⟩ := measureCell_fresh_indep t fresh fresh2 map z x _ _ (hin1 z x hm)
    have e2 := hin2 z x ((hmem z x).mp hm)
    rw [hc2, Option.some.injEq] at e2
    rw [← e2]
    exact ⟨hp, hl⟩
  · rw [hout1 z x hm, hout2 z x (fun h => hm ((hmem z x).mpr h))]
    exact ⟨rfl, rfl⟩

/-- Claim C13. One step of the loop over the cells reads, besides the map,
only the cell it visits and writes only that cell. For every permutation of
the row-major order the loop gives the same outcome as the row-major order:
the same grid, or no result for both. The probabilities and particle counts
agree even when the particles made along the two orders differ. The loop
completes on every grid that fits `int`. -/
theorem estimate_order_independent (t : PolarGridTracking P) (fresh : Nat → Nat → Nat → P)
    (map : BinaryMap) :
    (∀ (g g1 : CellGrid P) (zx : Nat × Nat), measureStep t fresh map g zx = some g1 →
      g1.rows = g.rows ∧ g1.cols = g.cols ∧
      measureCell t fresh map zx.1 zx.2 (g.cell zx.1 zx.2) = some (g1.cell zx.1 zx.2) ∧
      ∀ z x, (z, x) ≠ zx → g1.cell z x = g.cell z x) ∧
    (∀ order : List (Nat × Nat), order.Perm (cellOrder t.m_grid.rows t.m_grid.cols) →
      measurementLoop t fresh map order t.m_grid =
        measurementLoop t fresh map (cellOrder t.m_grid.rows t.m_grid.cols) t.m_grid) ∧
    (∀ (order : List (Nat × Nat)) (fresh2 : Nat → Nat → Nat → P) (g1 : CellGrid P),
      order.Perm (cellOrder t.m_grid.rows t.m_grid.cols) →
      measurementLoop t fresh2 map order t.m_grid = some g1 →
      ∃ g2, measurementLoop t fresh map (cellOrder t.m_grid.rows t.m_grid.cols) t.m_grid =
          some g2 ∧
        ∀ z x, (g2.cell z x).occupiedProb = (g1.cell z x).occupiedProb ∧
          (g2.cell z x).particles.length = (g1.cell z x).particles.length) ∧
    (map.rows = t.m_grid.rows → map.cols = t.m_grid.cols → t.m_grid.fitsInt →
      ∃ g1, measurementLoop t fresh map (cellOrder t.m_grid.rows t.m_grid.cols) t.m_grid =
        some g1) := by
  refine ⟨?_, ?_, ?_, ?_⟩
  · intro g g1 zx h
    obtain ⟨z0, x0⟩ := zx
    simp only [measureStep, Option.map_eq_some'] at h
    obtain ⟨c, hc, rfl⟩ := h
    refine ⟨rfl, rfl, ?_, ?_⟩
    · rw [CellGrid.set_cell_same]
      exact hc
    · intro z x hne
      exact CellGrid.set_cell_other g z0 x0 z x c hne
  · intro order hperm
    exact measurementLoop_perm t fresh map _ _ (cellOrder_nodup _ _) hperm _
  · intro order fresh2 g1 hperm h1
    exact measurementLoop_perm_fresh t fresh2 fresh map _ _ (cellOrder_nodup _ _) hperm _ g1 h1
  · intro hmr hmc hfit
    exact measurementLoop_isSome t fresh map _ (cellOrder_nodup _ _) t.m_grid
      (fun z x hm => measureCell_isSome_of_fitsInt t fresh map hmr hmc hfit z x
        ((cellOrder_mem _ _ z x).mp hm).1 ((cellOrder_mem _ _ z x).mp hm).2)

/-- Witness for claim C13: on the scenario, visiting the cells in reverse
order gives the result of the row-major order, and that run completes. -/
theorem estimate_order_independent_witness :
    measurementLoop scenarioTracker numberedParticle scenarioMap
        (cellOrder 10 10).reverse scenarioTracker.m_grid =
      measurementLoop scenarioTracker numberedParticle scenarioMap
        (cellOrder 10 10) scenarioTracker.m_grid ∧
    ∃ g1, measurementLoop scenarioTracker numberedParticle scenarioMap
        (cellOrder 10 10) scenarioTracker.m_grid = some g1 :=
  ⟨(estimate_order_independent scenarioTracker numberedParticle scenarioMap).2.1
      (cellOrder 10 10).reverse (List.reverse_perm _),
    (estimate_order_independent scenarioTracker numberedParticle scenarioMap).2.2.2
      rfl rfl scenario_fitsInt⟩

/-! ### What a run leaves untouched (claim C14) -/

/-- A completed run changes neither the radii nor, on a cell that the gate
rejects, the particles; where the gate passes the batch is appended. -/
theorem estimate_cell_frame (t : PolarGridTracking P) (fresh : Nat → Nat → Nat → P)
    (map : BinaryMap) (t1 : PolarGridTracking P) (h : estimate t fresh map = some t1)
    (z x : Nat) :
    (t1.m_grid.cell z x).sigmaX = (t.m_grid.cell z x).sigmaX ∧
    (t1.m_grid.cell z x).sigmaZ = (t.m_grid.cell z x).sigmaZ ∧
    ((t1.m_grid.cell z x).particles = (t.m_grid.cell z x).particles ∨
      ((t.m_grid.cell z x).particles = [] ∧ map.get z x = true ∧
        (t1.m_grid.cell z x).particles =
          (List.range t.m_particlesPerCell).map (fresh z x))) := by
  by_cases hzx : z < t.m_grid.rows ∧ x < t.m_grid.cols
  · obtain ⟨total, here, -, h2, hsx, hsz, -, hyes, hno⟩ :=
      estimate_cell t fresh map t1 h z x hzx.1 hzx.2
    refine ⟨hsx, hsz, ?_⟩
    by_cases hg : spawnGate here (t.m_grid.cell z x) (t1.m_grid.cell z x).occupiedProb
        t.m_threshProbForCreation
    · right
      have hpart := hyes hg
      rw [hg.2.1, List.nil_append] at hpart
      refine ⟨hg.2.1, ?_, hpart⟩
      rw [← read_get map z x here h2]
      exact hg.1
    · exact Or.inl (hno hg)
  · have hsame := (estimate_some t fresh map t1 h).2.2.2.2.2.2.2 z x hzx
    rw [hsame]
    exact ⟨rfl, rfl, Or.inl rfl⟩

/-- Claim C14. A completed run of the estimator leaves the radii of every
cell unchanged, leaves the particles of every cell that held at least one
particle exactly as they were, and never shortens a particle list: the old
particles are a prefix of the new ones. The run completes on every grid that
fits `int`. -/
theorem estimate_keeps_particles (t : PolarGridTracking P) (fresh : Nat → Nat → Nat → P)
    (map : BinaryMap) :
    (map.rows = t.m_grid.rows → map.cols = t.m_grid.cols → t.m_grid.fitsInt →
      ∃ t1, estimate t fresh map = some t1) ∧
    ∀ t1, estimate t fresh map = some t1 →
      ∀ z x,
        (t1.m_grid.cell z x).sigmaX = (t.m_grid.cell z x).sigmaX ∧
        (t1.m_grid.cell z x).sigmaZ = (t.m_grid.cell z x).sigmaZ ∧
        ((t.m_grid.cell z x).particles ≠ [] →
          (t1.m_grid.cell z x).particles = (t.m_grid.cell z x).particles) ∧
        (t.m_grid.cell z x).particles <+: (t1.m_grid.cell z x).particles ∧
        (t.m_grid.cell z x).particles.length ≤ (t1.m_grid.cell z x).particles.length := by
  refine ⟨fun hmr hmc hfit => estimate_isSome_of_fitsInt t fresh map hmr hmc hfit, ?_⟩
  intro t1 h z x
  obtain ⟨hsx, hsz, hpart⟩ := estimate_cell_frame t fresh map t1 h z x
  refine ⟨hsx, hsz, ?_, ?_, ?_⟩
  · intro hne
    rcases hpart with hp | ⟨hnil, -, -⟩
    · exact hp
    · exact absurd hnil hne
  · rcases hpart with hp | ⟨hnil, -, -⟩
    · rw [hp]
    · rw [hnil]
      exact List.nil_prefix
  · rcases hpart with hp | ⟨hnil, -, -⟩
    · rw [hp]
    · rw [hnil]
      exact Nat.zero_le _

/-- Witness for claim C14: on the scenario the run completes, cell `(5, 5)`
keeps its radii and its particle count does not decrease. -/
theorem estimate_keeps_particles_witness :
    ∃ t1, estimate scenarioTracker numberedParticle scenarioMap = some t1 ∧
      (t1.m_grid.cell 5 5).sigmaX = 1 ∧ (t1.m_grid.cell 5 5).sigmaZ = 1 ∧
      (scenarioTracker.m_grid.cell 5 5).particles.length ≤
        (t1.m_grid.cell 5 5).particles.length := by
  obtain ⟨hex, hall⟩ := estimate_keeps_particles scenarioTracker numberedParticle scenarioMap
  obtain ⟨t1, h⟩ := hex rfl rfl scenario_fitsInt
  obtain ⟨hsx, hsz, -, -, hlen⟩ := hall t1 h 5 5
  exact ⟨t1, h, hsx, hsz, hlen⟩

/-! ### Reordering the cloud (claim C15) -/

theorem BinaryMap.eq_of_entries (m1 m2 : BinaryMap) (hr : m1.rows = m2.rows)
    (hc : m1.cols = m2.cols) (hg : ∀ r c, m1.get r c = m2.get r c) : m1 = m2 := by
  cases m1
  cases m2
  simp only at hr hc hg
  subst hr hc
  have hfun : ∀ f g : Nat → Nat → Bool, (∀ r c, f r c = g r c) → f = g :=
    fun f g h => funext (fun r => funext (fun c => h r c))
  rw [hfun _ _ hg]

theorem getBinaryMap_shape (t : PolarGridTracking P) (cloud : List Point) :
    (getBinaryMapFromPointCloud t cloud).rows = t.m_grid.rows ∧
    (getBinaryMapFromPointCloud t cloud).cols = t.m_grid.cols :=
  foldl_markPoint_shape t cloud _

theorem getBinaryMap_eq_of_same_points (t : PolarGridTracking P) (A B : List Point)
    (h : ∀ p, p ∈ A ↔ p ∈ B) :
    getBinaryMapFromPointCloud t A = getBinaryMapFromPointCloud t B := by
  refine BinaryMap.eq_of_entries _ _ ?_ ?_ ?_
  · rw [(getBinaryMap_shape t A).1, (getBinaryMap_shape t B).1]
  · rw [(getBinaryMap_shape t A).2, (getBinaryMap_shape t B).2]
  · intro r c
    rw [Bool.eq_iff_iff, getBinaryMap_get, getBinaryMap_get]
    constructor
    · rintro ⟨p, hp, hrest⟩
      exact ⟨p, (h p).mp hp, hrest⟩
    · rintro ⟨p, hp, hrest⟩
      exact ⟨p, (h p).mpr hp, hrest⟩

/-- Claim C15. The map built from the concatenation of two clouds is the
entrywise OR of the maps built from each; clouds that are permutations of
each other, or more generally have the same points, give the same map, and
so does a cloud with every point duplicated. -/
theorem getBinaryMapFromPointCloud_depends_on_point_set (t : PolarGridTracking P)
    (A B : List Point) :
    (∀ r c, (getBinaryMapFromPointCloud t (A ++ B)).get r c =
      ((getBinaryMapFromPointCloud t A).get r c || (getBinaryMapFromPointCloud t B).get r c)) ∧
    (A.Perm B → getBinaryMapFromPointCloud t A = getBinaryMapFromPointCloud t B) ∧
    ((∀ p, p ∈ A ↔ p ∈ B) → getBinaryMapFromPointCloud t A = getBinaryMapFromPointCloud t B) ∧
    getBinaryMapFromPointCloud t (A ++ A) = getBinaryMapFromPointCloud t A := by
  refine ⟨?_, ?_, getBinaryMap_eq_of_same_points t A B, ?_⟩
  · intro r c
    rw [Bool.eq_iff_iff, Bool.or_eq_true, getBinaryMap_get, getBinaryMap_get, getBinaryMap_get]
    constructor
    · rintro ⟨p, hp, hrest⟩
      rcases List.mem_append.mp hp with h | h
      · exact Or.inl ⟨p, h, hrest⟩
      · exact Or.inr ⟨p, h, hrest⟩
    · rintro (⟨p, hp, hrest⟩ | ⟨p, hp, hrest⟩)
      · exact ⟨p, List.mem_append_left _ hp, hrest⟩
      · exact ⟨p, List.mem_append_right _ hp, hrest⟩
  · intro hperm
    exact getBinaryMap_eq_of_same_points t A B (fun p => hperm.mem_iff)
  · refine getBinaryMap_eq_of_same_points t _ _ (fun p => ?_)
    rw [List.mem_append, or_self]

/-- Witness for claim C15: swapping the two points of a cloud gives the same
map. -/
theorem getBinaryMapFromPointCloud_depends_on_point_set_witness :
    getBinaryMapFromPointCloud scenarioTracker
        [{ x := 1 / 2, z := 11 / 2 }, { x := 3 / 2, z := 5 / 2 }] =
      getBinaryMapFromPointCloud scenarioTracker
        [{ x := 3 / 2, z := 5 / 2 }, { x := 1 / 2, z := 11 / 2 }] :=
  (getBinaryMapFromPointCloud_depends_on_point_set scenarioTracker
    [{ x := 1 / 2, z := 11 / 2 }, { x := 3 / 2, z := 5 / 2 }]
    [{ x := 3 / 2, z := 5 / 2 }, { x := 1 / 2, z := 11 / 2 }]).2.1 (List.Perm.swap _ _ _)

/-! ### Monotonicity in the map (claim C16) -/

theorem clampedWindowCount_mono (M1 M2 : BinaryMap) (rows cols z x : Nat)
    (sigmaX sigmaZ : Int) (hsub : ∀ r c, M1.get r c = true → M2.get r c = true) :
    clampedWindowCount M1 rows cols z x sigmaX sigmaZ ≤
      clampedWindowCount M2 rows cols z x sigmaX sigmaZ := by
  unfold clampedWindowCount
  refine Finset.card_le_card ?_
  intro p hp
  simp only [Finset.mem_filter] at hp ⊢
  obtain ⟨hmem, h1, h2, h3, h4, h5⟩ := hp
  exact ⟨hmem, h1, h2, h3, h4, hsub _ _ h5⟩

/-- Claim C16, amended. On a grid that fits `int` and has fewer than `2 ^ 32`
cells, for two binary maps of the grid's shape with `M1(r, c)` implying
`M2(r, c)` everywhere, both runs complete and every cell's `occupiedProb`
from `M1` is at most its `occupiedProb` from `M2`. -/
theorem occupiedProb_monotone_in_map (t : PolarGridTracking P)
    (fresh fresh2 : Nat → Nat → Nat → P) (M1 M2 : BinaryMap)
    (h1r : M1.rows = t.m_grid.rows) (h1c : M1.cols = t.m_grid.cols)
    (h2r : M2.rows = t.m_grid.rows) (h2c : M2.cols = t.m_grid.cols)
    (hfit : t.m_grid.fitsInt) (hsize : t.m_grid.rows * t.m_grid.cols < 4294967296)
    (hsub : ∀ r c, M1.get r c = true → M2.get r c = true) :
    ∃ t1 t2, estimate t fresh M1 = some t1 ∧ estimate t fresh2 M2 = some t2 ∧
      ∀ z x, z < t.m_grid.rows → x < t.m_grid.cols →
        (t1.m_grid.cell z x).occupiedProb ≤ (t2.m_grid.cell z x).occupiedProb := by
  obtain ⟨t1, e1⟩ := estimate_isSome_of_fitsInt t fresh M1 h1r h1c hfit
  obtain ⟨t2, e2⟩ := estimate_isSome_of_fitsInt t fresh2 M2 h2r h2c hfit
  refine ⟨t1, t2, e1, e2, ?_⟩
  intro z x hz hx
  have hp1 := estimate_cell_prob t fresh M1 h1r h1c hfit t1 e1 z x hz hx
  have hp2 := estimate_cell_prob t fresh2 M2 h2r h2c hfit t2 e2 z x hz hx
  obtain ⟨h0x, h0z, -, -⟩ := hfit.2.2 z x hz hx
  have hlt1 := lt_of_le_of_lt (clampedWindowCount_le_cells M1 t.m_grid.rows t.m_grid.cols z x
    (t.m_grid.cell z x).sigmaX (t.m_grid.cell z x).sigmaZ) hsize
  have hlt2 := lt_of_le_of_lt (clampedWindowCount_le_cells M2 t.m_grid.rows t.m_grid.cols z x
    (t.m_grid.cell z x).sigmaX (t.m_grid.cell z x).sigmaZ) hsize
  rw [Nat.mod_eq_of_lt hlt1] at hp1
  rw [Nat.mod_eq_of_lt hlt2] at hp2
  rw [hp1, hp2]
  exact occupiedProbOf_le_of_le _ _ _ _ h0x h0z
    (clampedWindowCount_mono M1 M2 _ _ z x _ _ hsub)

/-- Witness for claim C16: on the scenario grid the map with the single
entry `(5, 5)` gives cell `(5, 5)` at most the probability that the
all-occupied map gives it. -/
theorem occupiedProb_monotone_in_map_witness :
    ∃ t1 t2, estimate scenarioTracker numberedParticle scenarioMap = some t1 ∧
      estimate scenarioTracker numberedParticle (fullMap 10 10) = some t2 ∧
      (t1.m_grid.cell 5 5).occupiedProb ≤ (t2.m_grid.cell 5 5).occupiedProb := by
  obtain ⟨t1, t2, e1, e2, hall⟩ := occupiedProb_monotone_in_map scenarioTracker
    numberedParticle numberedParticle scenarioMap (fullMap 10 10) rfl rfl rfl rfl
    scenario_fitsInt (by decide) (fun _ _ _ => rfl)
  exact ⟨t1, t2, e1, e2, hall 5 5 (by decide) (by decide)⟩

theorem square_fitsInt : squareTracker.m_grid.fitsInt := by
  refine ⟨by decide, by decide, ?_⟩
  intro z x hz hx
  have hz1 : z < 65536 := hz
  have hx1 : x < 65536 := hx
  simp only [squareTracker, emptyCell]
  omega

theorem window_covers_grid (map : BinaryMap) (rows cols : Nat) (sigmaX sigmaZ : Int)
    (hz : (rows : Int) ≤ sigmaZ) (hx : (cols : Int) ≤ sigmaX) :
    clampedWindowCount map rows cols 0 0 sigmaX sigmaZ =
      ((Finset.range rows ×ˢ Finset.range cols).filter
        (fun p => map.get p.1 p.2 = true)).card := by
  unfold clampedWindowCount
  congr 1
  refine Finset.filter_congr ?_
  intro p hp
  rw [Finset.mem_product, Finset.mem_range, Finset.mem_range] at hp
  constructor
  · intro h
    exact h.2.2.2.2
  · intro h
    refine ⟨?_, ?_, ?_, ?_, h⟩ <;> omega

theorem card_fullMap (rows cols : Nat) :
    ((Finset.range rows ×ˢ Finset.range cols).filter
      (fun p => (fullMap rows cols).get p.1 p.2 = true)).card = rows * cols := by
  have hall : (Finset.range rows ×ˢ Finset.range cols).filter
      (fun p => (fullMap rows cols).get p.1 p.2 = true) =
      Finset.range rows ×ˢ Finset.range cols :=
    Finset.filter_true_of_mem (fun _ _ => rfl)
  rw [hall, Finset.card_product, Finset.card_range, Finset.card_range]

theorem card_fullMap_punctured (rows cols : Nat) (hr : 0 < rows) (hc : 0 < cols) :
    ((Finset.range rows ×ˢ Finset.range cols).filter
      (fun p => ((fullMap rows cols).set 0 0 false).get p.1 p.2 = true)).card =
      rows * cols - 1 := by
  have hpred : ∀ p ∈ Finset.range rows ×ˢ Finset.range cols,
      (((fullMap rows cols).set 0 0 false).get p.1 p.2 = true ↔ p ≠ (0, 0)) := by
    rintro ⟨r, c⟩ -
    simp only [BinaryMap.set, fullMap, ne_eq, Prod.mk.injEq]
    by_cases h : r = 0 ∧ c = 0
    · simp [h]
    · simp [h]
  rw [Finset.filter_congr hpred, Finset.filter_ne',
    Finset.card_erase_of_mem (Finset.mem_product.mpr
      ⟨Finset.mem_range.mpr hr, Finset.mem_range.mpr hc⟩),
    Finset.card_product, Finset.card_range, Finset.card_range]

theorem square_count_full :
    clampedWindowCount (fullMap 65536 65536) 65536 65536 0 0 65536 65536 = 4294967296 := by
  rw [window_covers_grid _ 65536 65536 65536 65536 (by norm_num) (by norm_num), card_fullMap]

theorem square_count_punctured :
    clampedWindowCount ((fullMap 65536 65536).set 0 0 false) 65536 65536 0 0 65536 65536 =
      4294967295 := by
  rw [window_covers_grid _ 65536 65536 65536 65536 (by norm_num) (by norm_num),
    card_fullMap_punctured 65536 65536 (by omega) (by omega)]

/-- Claim C16 fails as stated. On a grid of `2 ^ 16` by `2 ^ 16` cells with
radii `2 ^ 16` (it fits `int`) the window of cell `(0, 0)` is the whole grid.
On the all-occupied map the `uint32_t` counter `totalOccupied` wraps to 0 and
`occupiedProb = 0`; on the smaller map without the entry `(0, 0)` the counter
is `2 ^ 32 - 1` and `occupiedProb > 0`. -/
theorem occupiedProb_not_monotone_on_square_grid :
    squareTracker.m_grid.fitsInt ∧
    (∀ r c, ((fullMap 65536 65536).set 0 0 false).get r c = true →
      (fullMap 65536 65536).get r c = true) ∧
    ∃ t1 t2,
      estimate squareTracker numberedParticle ((fullMap 65536 65536).set 0 0 false) = some t1 ∧
      estimate squareTracker numberedParticle (fullMap 65536 65536) = some t2 ∧
      (t2.m_grid.cell 0 0).occupiedProb = 0 ∧
      0 < (t1.m_grid.cell 0 0).occupiedProb ∧
      ¬ (t1.m_grid.cell 0 0).occupiedProb ≤ (t2.m_grid.cell 0 0).occupiedProb := by
  refine ⟨square_fitsInt, fun _ _ _ => rfl, ?_⟩
  obtain ⟨t1, e1⟩ := estimate_isSome_of_fitsInt squareTracker numberedParticle
    ((fullMap 65536 65536).set 0 0 false) rfl rfl square_fitsInt
  obtain ⟨t2, e2⟩ := estimate_isSome_of_fitsInt squareTracker numberedParticle
    (fullMap 65536 65536) rfl rfl square_fitsInt
  have hp1 := estimate_cell_prob squareTracker numberedParticle _ rfl rfl square_fitsInt t1 e1
    0 0 (show (0 : Nat) < 65536 by omega) (show (0 : Nat) < 65536 by omega)
  have hp2 := estimate_cell_prob squareTracker numberedParticle _ rfl rfl square_fitsInt t2 e2
    0 0 (show (0 : Nat) < 65536 by omega) (show (0 : Nat) < 65536 by omega)
  have hc1 : clampedWindowCount ((fullMap 65536 65536).set 0 0 false)
      squareTracker.m_grid.rows squareTracker.m_grid.cols 0 0
      (squareTracker.m_grid.cell 0 0).sigmaX (squareTracker.m_grid.cell 0 0).sigmaZ =
      4294967295 := square_count_punctured
  have hc2 : clampedWindowCount (fullMap 65536 65536)
      squareTracker.m_grid.rows squareTracker.m_grid.cols 0 0
      (squareTracker.m_grid.cell 0 0).sigmaX (squareTracker.m_grid.cell 0 0).sigmaZ =
      4294967296 := square_count_full
  rw [hc1] at hp1
  rw [hc2] at hp2
  have h2 : (t2.m_grid.cell 0 0).occupiedProb = 0 := by
    rw [hp2]
    exact occupiedProbOf_zero _ _
  have h1 : 0 < (t1.m_grid.cell 0 0).occupiedProb := by
    rw [hp1]
    simp only [squareTracker, emptyCell, occupiedProbOf]
    norm_num
  refine ⟨t1, t2, e1, e2, h2, h1, ?_⟩
  rw [h2]
  exact not_le.mpr h1

/-! ### Row 0 and column 0 (claim C17) -/

theorem getBinaryMap_border_false (t : PolarGridTracking P) (cloud : List Point) (r c : Nat)
    (h : r = 0 ∨ c = 0) : (getBinaryMapFromPointCloud t cloud).get r c = false := by
  cases hget : (getBinaryMapFromPointCloud t cloud).get r c with
  | false => rfl
  | true =>
    obtain ⟨p, -, ⟨h1, -, h3, -⟩, hz, hx⟩ := (getBinaryMap_get t cloud r c).mp hget
    omega

/-- Claim C17. A completed run of `getMeasurementModelFromPointCloud` leaves
the particles of every cell `(0, c)` and `(r, 0)` as they were, for every
cloud, threshold and grid state: the map it builds is false in row 0 and
column 0, and a spawn needs the cell's own entry. The run completes on every
grid that fits `int`. -/
theorem getMeasurementModel_never_spawns_on_border (t : PolarGridTracking P)
    (fresh : Nat → Nat → Nat → P) (cloud : List Point) :
    (t.m_grid.fitsInt → ∃ t1, getMeasurementModelFromPointCloud t fresh cloud = some t1) ∧
    ∀ t1, getMeasurementModelFromPointCloud t fresh cloud = some t1 →
      (∀ c, (t1.m_grid.cell 0 c).particles = (t.m_grid.cell 0 c).particles) ∧
      (∀ r, (t1.m_grid.cell r 0).particles = (t.m_grid.cell r 0).particles) := by
  constructor
  · intro hfit
    exact estimate_isSome_of_fitsInt t fresh _ (getBinaryMap_shape t cloud).1
      (getBinaryMap_shape t cloud).2 hfit
  · intro t1 h
    have key : ∀ r c, r = 0 ∨ c = 0 →
        (t1.m_grid.cell r c).particles = (t.m_grid.cell r c).particles := by
      intro r c hrc
      obtain ⟨-, -, hpart⟩ := estimate_cell_frame t fresh _ t1 h r c
      rcases hpart with hp | ⟨-, htrue, -⟩
      · exact hp
      · rw [getBinaryMap_border_false t cloud r c hrc] at htrue
        cases htrue
    exact ⟨fun c => key 0 c (Or.inl rfl), fun r => key r 0 (Or.inr rfl)⟩

/-- Witness for claim C17: on the scenario grid with one point in the cloud
the run completes and the cells `(0, 5)` and `(5, 0)` hold no particle. -/
theorem getMeasurementModel_never_spawns_on_border_witness :
    ∃ t1, getMeasurementModelFromPointCloud scenarioTracker numberedParticle
        [{ x := 1 / 2, z := 11 / 2 }] = some t1 ∧
      (t1.m_grid.cell 0 5).particles = [] ∧ (t1.m_grid.cell 5 0).particles = [] := by
  obtain ⟨hex, hall⟩ := getMeasurementModel_never_spawns_on_border scenarioTracker
    numberedParticle [{ x := 1 / 2, z := 11 / 2 }]
  obtain ⟨t1, h⟩ := hex scenario_fitsInt
  exact ⟨t1, h, (hall t1 h).1 5, (hall t1 h).2 5⟩

end Theorems

end polar_grid_tracking
